import Mathlib

/-!
Verification development for the logprob-ranker repository.

The definitions below are a shallow embedding of the core modules:

* `src/logprob_ranker/logprob_ranker/ranker.py`
  (class `LogProbRanker`: `generate_and_evaluate_output`, `rank_outputs`;
  class `LiteLLMAdapter`: `_extract_raw_token_logprobs`)
* `src/logprob_ranker/logprob_ranker/utils.py`
  (`extract_template_attributes`, `sort_ranked_outputs`)
* `src/logprob_ranker/logprob_ranker/adapters/litellm_adapter.py`
  (`LiteLLMAdapter.score_text_attributes`)
* `src/logprob_ranker/logprob_ranker/models.py`
  (`AttributeScore`, `RankedOutput`)

Python floats are modelled as rational numbers (`ℚ`); Python strings as
Lean `String`; Python exceptions as `Except`/`Option` results.
-/

/-- The literal apostrophe character, used in the explanation strings that the
Python code builds with f-strings. -/
def apos : String := String.singleton (Char.ofNat 39)

/-- Substring test: `strContains hay needle` models Python `needle in hay`. -/
def strContains (hay needle : String) : Bool :=
  decide (needle.toList <:+: hay.toList)

/-- One `(token, logprob)` pair of a completion's token stream, as produced by
`LiteLLMAdapter._extract_raw_token_logprobs` (ranker.py). -/
structure TokenLP where
  token : String
  logprob : ℚ
  deriving DecidableEq, Repr

/-- models.py `AttributeScore`: one scored boolean criterion. -/
structure AttributeScore where
  name : String
  score : ℚ
  explanation : String
  deriving DecidableEq, Repr

/-- models.py `RankedOutput`: one generated variant with its aggregate score. -/
structure RankedOutput where
  output : String
  logprob : ℚ
  index : Nat
  attribute_scores : List AttributeScore
  raw_evaluation : String
  deriving DecidableEq, Repr

/-! ## The token-logprob attribute scanner

Embedding of the scan in `LogProbRanker.generate_and_evaluate_output`
(ranker.py lines 209-315).  Phase A locates the attribute key by
concatenating tokens, Phase B locates the colon, Phase C locates the
`true`/`false` value token. -/

/-- The whitespace characters stripped by Python `str.strip()` (the ASCII
ones; `str.strip` also strips some further Unicode spaces, which do not occur
in the data this development evaluates on). -/
def isPyWs (c : Char) : Bool :=
  c == ' ' || c == '\t' || c == '\n' || c == '\r'
    || c == Char.ofNat 11 || c == Char.ofNat 12

/-- Strip leading and trailing whitespace from a character list. -/
def charStrip (l : List Char) : List Char :=
  ((l.dropWhile isPyWs).reverse.dropWhile isPyWs).reverse

/-- Python `s.strip()`. -/
def pyStrip (s : String) : String := String.mk (charStrip s.toList)

/-- Python `s.startswith(pre)`. -/
def pyStartsWith (s pre : String) : Bool := pre.toList.isPrefixOf s.toList

/-- Python `s.endswith(suf)`. -/
def pyEndsWith (s suf : String) : Bool := suf.toList.isSuffixOf s.toList

/-- Python `s[n:]` (drop the first `n` characters). -/
def pyDrop (s : String) (n : Nat) : String := String.mk (s.toList.drop n)

/-- Python `s[:-n]` (drop the last `n` characters). -/
def pyDropRight (s : String) (n : Nat) : String :=
  String.mk (s.toList.take (s.toList.length - n))

/-- Python `s.lower()` (ASCII case folding; Python also folds further Unicode
letters, which do not occur in the data this development evaluates on). -/
def pyToLower (s : String) : String := String.mk (s.toList.map Char.toLower)

/-- ranker.py line 239: the heuristic delimiter test that stops key
accumulation (`token.strip() in [":","{","}","[","]",","] or '" :' in token
or ':"' in token or token == '"'`). -/
def isKeyDelimiter (t : String) : Bool :=
  [":", "\x7b", "\x7d", "[", "]", ","].contains (pyStrip t)
    || strContains t "\" :" || strContains t ":\"" || t == "\""

/-- ranker.py lines 250-257: normalize the accumulated key text
(strip whitespace, then strip a leading `{"` or `"` together with a
trailing `"`). -/
def normalizeKey (acc : String) : String :=
  let n := pyStrip acc
  if pyStartsWith n "\x7b\"" && pyEndsWith n "\"" then pyDropRight (pyDrop n 2) 1
  else if pyStartsWith n "\"" && pyEndsWith n "\"" then pyDropRight (pyDrop n 1) 1
  else n

/-- Phase A inner loop (ranker.py lines 233-267): starting at absolute token
index `k`, accumulate token texts; return `some (k'+1)` when the normalized
accumulator equals `attr` at token index `k'` (the colon search start), `none`
when the accumulation path is abandoned. -/
def keyScanFrom (attr : String) : List TokenLP → Nat → String → Option Nat
  | [], _, _ => none
  | tk :: rest, k, acc =>
    if isKeyDelimiter tk.token then none
    else
      let acc' := acc ++ tk.token
      let norm := normalizeKey acc'
      if norm == attr then some (k + 1)
      else if norm.length > attr.length ∨ pyStartsWith attr norm = false then none
      else keyScanFrom attr rest (k + 1) acc'

/-- Phase A outer loop (ranker.py lines 230-271): try every starting token
position from the cursor on; `j` is the absolute index of the head of the
list. -/
def findKeyEnd (attr : String) : List TokenLP → Nat → Option Nat
  | [], _ => none
  | tk :: rest, j =>
    match keyScanFrom attr (tk :: rest) j "" with
    | some c => some c
    | none => findKeyEnd attr rest (j + 1)

/-- Phase B (ranker.py lines 275-284): scan from absolute index `i` (initially
`cs0`) for a token containing a colon; abort on a later quoted token or a
closing brace/bracket.  Returns the value search start index. -/
def findColon (cs0 : Nat) : List TokenLP → Nat → Option Nat
  | [], _ => none
  | tk :: rest, i =>
    if strContains tk.token ":" then some (i + 1)
    else if (pyStartsWith tk.token "\"" && decide (cs0 < i)) || tk.token == "\x7d"
        || tk.token == "]" then none
    else findColon cs0 rest (i + 1)

/-- ranker.py line 290: trimmed, lower-cased, quote-stripped token text used
for the boolean value comparison. -/
def normalizeBoolTok (t : String) : String :=
  String.mk ((pyToLower (pyStrip t)).toList.filter (fun c => c ≠ '"'))

/-- Result of Phase C: either the value token was found (with its raw text,
logprob and the new cursor), or not (with the new cursor). -/
inductive ValueScanResult where
  | found (tokenText : String) (lp : ℚ) (cursor : Nat)
  | notFound (cursor : Nat)
  deriving DecidableEq, Repr

/-- Phase C (ranker.py lines 288-305): scan from absolute index `i` (initially
`vs0`) for a token whose normalized text is `true` or `false`; abort on `,`,
`}`, `]` or a later quoted token (cursor set to that index); when the stream
runs out the cursor is set to the stream length (the `for`-`else`). -/
def findValue (vs0 : Nat) : List TokenLP → Nat → ValueScanResult
  | [], i => .notFound i
  | tk :: rest, i =>
    if normalizeBoolTok tk.token == "true" || normalizeBoolTok tk.token == "false" then
      .found tk.token tk.logprob (i + 1)
    else if tk.token == "," || tk.token == "\x7d" || tk.token == "]"
        || (pyStartsWith tk.token "\"" && decide (vs0 < i)) then
      .notFound i
    else findValue vs0 rest (i + 1)

/-- ranker.py line 217: the default explanation when no value token is found. -/
def notFoundMsg (attr : String) : String :=
  "Value token for " ++ apos ++ attr ++ apos ++ " not found."

/-- ranker.py line 295: the explanation recorded when the value token is found. -/
def foundMsg (tokenText attr : String) : String :=
  "Logprob of token " ++ apos ++ pyStrip tokenText ++ apos ++ " for " ++ apos ++ attr ++ apos

/-- Outcome of scanning one attribute: the appended `AttributeScore`, the
`found_this_attribute_value` flag, and the updated
`current_token_stream_idx`. -/
structure AttrScanOutcome where
  score : AttributeScore
  found : Bool
  cursor : Nat
  deriving DecidableEq, Repr

/-- One iteration of the per-attribute loop of
`generate_and_evaluate_output` (ranker.py lines 215-311) at cursor
position `cursor`. -/
def scanOneAttribute (tokens : List TokenLP) (cursor : Nat) (attr : String) :
    AttrScanOutcome :=
  let keyRes := findKeyEnd attr (tokens.drop cursor) cursor
  let valStart :=
    match keyRes with
    | none => none
    | some cs0 => findColon cs0 (tokens.drop cs0) cs0
  match valStart with
  | some vs0 =>
    if vs0 < tokens.length then
      match findValue vs0 (tokens.drop vs0) vs0 with
      | .found txt lp cur =>
        { score := ⟨attr, lp, foundMsg txt attr⟩, found := true, cursor := cur }
      | .notFound cur =>
        { score := ⟨attr, 0, notFoundMsg attr⟩, found := false, cursor := cur }
    else { score := ⟨attr, 0, notFoundMsg attr⟩, found := false, cursor := cursor }
  | none => { score := ⟨attr, 0, notFoundMsg attr⟩, found := false, cursor := cursor }

/-- Running state of the scan: the accumulated `attribute_scores_list`
(each with its `found_this_attribute_value` flag), the running
`total_attribute_token_logprob`, `num_scores_found`, and
`current_token_stream_idx`. -/
structure ScanState where
  entries : List (AttributeScore × Bool)
  total : ℚ
  numFound : Nat
  cursor : Nat
  deriving DecidableEq, Repr

/-- One step of the attribute loop: scan the attribute at the current cursor
and update the accumulators (ranker.py lines 307-311). -/
def scanStep (tokens : List TokenLP) (st : ScanState) (attr : String) : ScanState :=
  let o := scanOneAttribute tokens st.cursor attr
  { entries := st.entries ++ [(o.score, o.found)]
    total := if o.found then st.total + o.score.score else st.total
    numFound := if o.found then st.numFound + 1 else st.numFound
    cursor := o.cursor }

/-- The full scan of `generate_and_evaluate_output` over the attribute list. -/
def scanAttributes (attrs : List String) (tokens : List TokenLP) : ScanState :=
  attrs.foldl (scanStep tokens) ⟨[], 0, 0, 0⟩

/-- ranker.py lines 313-315: `final_score = total / num_scores_found` when at
least one attribute was scored, else `0.0`. -/
def finalScore (st : ScanState) : ℚ :=
  if 0 < st.numFound then st.total / (st.numFound : ℚ) else 0

/-- The `RankedOutput` built by `generate_and_evaluate_output`
(ranker.py lines 317-323) from the scan of the evaluation token stream. -/
def evaluateOutput (attrs : List String) (tokens : List TokenLP)
    (genContent rawEval : String) (index : Nat) : RankedOutput :=
  let st := scanAttributes attrs tokens
  { output := genContent
    logprob := finalScore st
    index := index
    attribute_scores := st.entries.map Prod.fst
    raw_evaluation := rawEval }

/-! ## The adapter scanner: `LiteLLMAdapter.score_text_attributes`

Embedding of the scan in `adapters/litellm_adapter.py` lines 438-513.
It shares Phases B and C's structure with the ranker scan but uses a
slightly different key-mismatch test, raises a `ValueError` when an
attribute's value token is not found, and raises a `ValueError` when a
located boolean token has logprob exactly `0.0`. -/

/-- Python `s.strip('"')`: drop every leading and trailing `"` character. -/
def stripQuoteChars (s : String) : String :=
  String.mk (((s.toList.dropWhile (fun c => c = '"')).reverse.dropWhile
    (fun c => c = '"')).reverse)

/-- Phase A inner loop of `score_text_attributes`
(litellm_adapter.py lines 453-467); differs from `keyScanFrom` in the
mismatch condition (`len(norm) > len(attr) + 5 or (len(norm) > 0 and not
attr.startswith(norm.strip('"')))`). -/
def adapterKeyScanFrom (attr : String) : List TokenLP → Nat → String → Option Nat
  | [], _, _ => none
  | tk :: rest, k, acc =>
    if isKeyDelimiter tk.token then none
    else
      let acc' := acc ++ tk.token
      let norm := normalizeKey acc'
      if norm == attr then some (k + 1)
      else if norm.length > attr.length + 5
          ∨ (0 < norm.length ∧ pyStartsWith attr (stripQuoteChars norm) = false) then none
      else adapterKeyScanFrom attr rest (k + 1) acc'

/-- Phase A outer loop of `score_text_attributes`
(litellm_adapter.py lines 451-469). -/
def adapterFindKeyEnd (attr : String) : List TokenLP → Nat → Option Nat
  | [], _ => none
  | tk :: rest, j =>
    match adapterKeyScanFrom attr (tk :: rest) j "" with
    | some c => some c
    | none => adapterFindKeyEnd attr rest (j + 1)

/-- Phase C of `score_text_attributes` (litellm_adapter.py lines 482-503):
like `findValue`, but the abort path simply breaks (no cursor update is
needed because the attribute then fails hard). -/
def adapterFindValue (vs0 : Nat) : List TokenLP → Nat → Option (String × ℚ × Nat)
  | [], _ => none
  | tk :: rest, i =>
    if normalizeBoolTok tk.token == "true" || normalizeBoolTok tk.token == "false" then
      some (tk.token, tk.logprob, i + 1)
    else if tk.token == "," || tk.token == "\x7d" || tk.token == "]"
        || (pyStartsWith tk.token "\"" && decide (vs0 < i)) then none
    else adapterFindValue vs0 rest (i + 1)

/-- litellm_adapter.py line 443: default explanation / error text. -/
def adapterNotFoundMsg (attr : String) : String :=
  "Value token for " ++ apos ++ attr ++ apos ++ " not found or logprob extraction failed."

/-- Decimal digits of a natural number (fuel-structural so that it reduces
in the kernel); `fuel ≥ n` suffices. -/
def natDigitsAux : Nat → Nat → List Char
  | 0, _ => []
  | _ + 1, 0 => []
  | fuel + 1, n => natDigitsAux fuel (n / 10) ++ [Char.ofNat (48 + n % 10)]

/-- Decimal rendering of a natural number. -/
def natToDec (n : Nat) : String :=
  if n = 0 then "0" else String.mk (natDigitsAux (n + 1) n)

/-- Decimal rendering with four fractional digits; models the `{token_lp:.4f}`
formatting of the Python float in litellm_adapter.py line 498. -/
def ratToFixed4 (q : ℚ) : String :=
  let sign := if q < 0 then "-" else ""
  let n : Nat := (⌊|q| * 10000 + 1/2⌋).toNat
  let fs := natToDec (n % 10000)
  sign ++ natToDec (n / 10000) ++ "." ++ String.mk (List.replicate (4 - fs.length) '0') ++ fs

/-- litellm_adapter.py line 498: explanation recorded for a found value. -/
def adapterFoundMsg (tokenText attr : String) (lp : ℚ) : String :=
  "Logprob of token " ++ apos ++ pyStrip tokenText ++ apos ++ " for " ++ apos ++ attr ++ apos
    ++ " is " ++ ratToFixed4 lp

/-- litellm_adapter.py lines 491-495: the error raised for a located boolean
token whose logprob is exactly `0.0`. -/
def suspiciousZeroMsg (tokenText attr : String) : String :=
  "Received a suspicious logprob of 0.0 (probability 1.0) for token "
    ++ apos ++ pyStrip tokenText ++ apos ++ " for attribute " ++ apos ++ attr ++ apos
    ++ ". This may indicate an API key problem or an issue with the LLM/LiteLLM returning valid logprobs."

/-- One iteration of the per-attribute loop of `score_text_attributes`
(litellm_adapter.py lines 441-511): either an `AttributeScore` plus the new
cursor, or the raised `ValueError` message. -/
def adapterScanOne (tokens : List TokenLP) (cursor : Nat) (attr : String) :
    Except String (AttributeScore × Nat) :=
  let keyRes := adapterFindKeyEnd attr (tokens.drop cursor) cursor
  let valStart :=
    match keyRes with
    | none => none
    | some cs0 => findColon cs0 (tokens.drop cs0) cs0
  match valStart with
  | some vs0 =>
    if vs0 < tokens.length then
      match adapterFindValue vs0 (tokens.drop vs0) vs0 with
      | some (txt, lp, cur) =>
        if lp = 0 then .error (suspiciousZeroMsg txt attr)
        else .ok (⟨attr, lp, adapterFoundMsg txt attr lp⟩, cur)
      | none => .error (adapterNotFoundMsg attr)
    else .error (adapterNotFoundMsg attr)
  | none => .error (adapterNotFoundMsg attr)

/-- The attribute loop of `score_text_attributes` starting at a given
cursor. -/
def adapterScanGo (tokens : List TokenLP) : List String → Nat →
    Except String (List AttributeScore)
  | [], _ => .ok []
  | attr :: more, cur =>
    match adapterScanOne tokens cur attr with
    | .error e => .error e
    | .ok (s, cur') =>
      match adapterScanGo tokens more cur' with
      | .error e => .error e
      | .ok rest => .ok (s :: rest)

/-- The scoring part of `LiteLLMAdapter.score_text_attributes`
(litellm_adapter.py lines 438-513), given the extracted attribute list and
the evaluation token stream. -/
def score_text_attributes (attrs : List String) (tokens : List TokenLP) :
    Except String (List AttributeScore) :=
  adapterScanGo tokens attrs 0

/-! ## Sorting and the ranking orchestrator -/

/-- Insert one output into an already descending-sorted list, before the first
element whose `logprob` does not exceed it.  Together with
`sort_ranked_outputs` this models `sorted(outputs, key=lambda x: x.logprob,
reverse=True)` (utils.py line 219): a stable sort, descending by
`logprob`. -/
def insertByLogprobDesc (x : RankedOutput) : List RankedOutput → List RankedOutput
  | [] => [x]
  | y :: ys => if y.logprob ≤ x.logprob then x :: y :: ys else y :: insertByLogprobDesc x ys

/-- utils.py `sort_ranked_outputs`: stable descending sort by `logprob`. -/
def sort_ranked_outputs : List RankedOutput → List RankedOutput
  | [] => []
  | x :: xs => insertByLogprobDesc x (sort_ranked_outputs xs)

/-- `asyncio.gather(*tasks)` with the default `return_exceptions=False`
(ranker.py line 353): if every task completes, the list of results in task
order; if any task raises, the exception propagates out of `gather`. -/
def gatherStrict : List (Except String (Option RankedOutput)) →
    Except String (List (Option RankedOutput))
  | [] => .ok []
  | .error e :: _ => .error e
  | .ok r :: rest =>
    match gatherStrict rest with
    | .error e => .error e
    | .ok l => .ok (r :: l)

/-- The outcome of one `generate_and_evaluate_output` task (ranker.py lines
147-333): the coroutine either returns a `RankedOutput` or raises a
`RuntimeError`; every failure path raises, so it never returns `None`. -/
def generate_and_evaluate_result (r : Except String RankedOutput) :
    Except String (Option RankedOutput) :=
  r.map some

/-- `LogProbRanker.rank_outputs` (ranker.py lines 335-371) as a function of
the per-variant task outcomes: gather the tasks, keep the non-`None` results
in task order, raise the aggregate error when none remain, and otherwise
return the sorted list. -/
def rank_outputs (unitResults : List (Except String (Option RankedOutput))) :
    Except String (List RankedOutput) :=
  match gatherStrict unitResults with
  | .error e => .error e
  | .ok results =>
    let ranked := results.filterMap id
    if ranked.isEmpty then .error "All generation and evaluation tasks failed."
    else .ok (sort_ranked_outputs ranked)

/-! ## `LiteLLMAdapter._extract_raw_token_logprobs` (ranker.py lines 444-489) -/

/-- One element of `choice.logprobs.content`.  `token = none` models a missing
`token` attribute or one that is not a string; `logprob = none` models a
missing `logprob` attribute or one that is not numeric. -/
structure LogprobItem where
  token : Option String
  logprob : Option ℚ
  deriving DecidableEq, Repr

/-- The `choice.logprobs` object; `content = none` models a missing `content`
attribute or one that is not a list. -/
structure LogprobsObj where
  content : Option (List LogprobItem)
  deriving DecidableEq, Repr

/-- One completion choice; `logprobs = none` models a missing or `None`
`logprobs` attribute. -/
structure CompletionChoice where
  logprobs : Option LogprobsObj
  deriving DecidableEq, Repr

/-- The LiteLLM `ModelResponse` as far as logprob extraction inspects it. -/
structure ModelResponse where
  choices : List CompletionChoice
  deriving DecidableEq, Repr

/-- The two error classes raised by `_extract_raw_token_logprobs`. -/
inductive LogprobsError where
  | logprobsNotAvailable (msg : String)
  | malformedLogprobs (msg : String)
  deriving DecidableEq, Repr

/-- The element loop of `_extract_raw_token_logprobs` (ranker.py lines
466-483): collect `(token, logprob)` pairs, raising `MalformedLogprobsError`
at the first element that lacks a string token or a numeric logprob.
`i` is the element index used in the error message. -/
def extractItemsLoop : List LogprobItem → Nat →
    Except LogprobsError (List (String × ℚ))
  | [], _ => .ok []
  | it :: rest, i =>
    match it.token, it.logprob with
    | some t, some q =>
      match extractItemsLoop rest (i + 1) with
      | .error e => .error e
      | .ok l => .ok ((t, q) :: l)
    | _, _ =>
      .error (.malformedLogprobs ("Malformed logprob_item #" ++ toString i
        ++ " in 'logprobs.content'. Expected (str, float/int)."))

/-- `LiteLLMAdapter._extract_raw_token_logprobs` (ranker.py lines 444-489):
fails with `LogprobsNotAvailableError` when the response is `None`, has no
choices, no (or `None`) `logprobs`, a missing/non-list `content`, or an empty
`content`; fails with `MalformedLogprobsError` at the first malformed element;
otherwise returns the full ordered `(token, logprob)` list. -/
def extract_raw_token_logprobs (response : Option ModelResponse) :
    Except LogprobsError (List (String × ℚ)) :=
  match response with
  | none => .error (.logprobsNotAvailable
      "LiteLLM response object is None, cannot extract logprobs.")
  | some resp =>
    match resp.choices with
    | [] => .error (.logprobsNotAvailable
        "Response choices list is empty or invalid, cannot extract logprobs.")
    | choice :: _ =>
      match choice.logprobs with
      | none => .error (.logprobsNotAvailable
          "No 'logprobs' attribute on choice object or it is None.")
      | some lpObj =>
        match lpObj.content with
        | none => .error (.logprobsNotAvailable
            "'logprobs.content' is missing or not a list.")
        | some [] => .error (.logprobsNotAvailable
            "'logprobs.content' is an empty list.")
        | some items =>
          match extractItemsLoop items 0 with
          | .error e => .error e
          | .ok l =>
            if l.isEmpty then .error (.logprobsNotAvailable
                "All logprob items in 'logprobs.content' were malformed.")
            else .ok l

/-! ## A model of `json.loads` for `extract_template_attributes`

utils.py `extract_template_attributes` parses the template with Python's
`json.loads` (directly, then after replacing `LOGPROB_TRUE` by
`"LOGPROB_TRUE"`), and falls back to `re.findall` on the pattern
`"([^" ]+)":\s*LOGPROB_TRUE`.  `json.loads` is modelled below as a lexer
over the four JSON whitespace characters plus a token-level recursive
parser; the model accepts exactly the inputs the Python parser accepts
(objects, arrays, strings with escapes, numbers, `true`/`false`/`null`,
and the CPython constants `NaN`/`Infinity`/`-Infinity`), and returns
`none` where `json.loads` raises `JSONDecodeError`. -/

/-- Parsed JSON values.  Python floats (including the `NaN`/`Infinity`
constants, which `ℚ` cannot carry) keep their own constructors. -/
inductive PyJson where
  | jnull
  | jbool (b : Bool)
  | jnum (q : ℚ)
  | jnan
  | jinf (neg : Bool)
  | jstr (s : String)
  | jarr (xs : List PyJson)
  | jobj (kvs : List (String × PyJson))

/-- The four whitespace characters skipped by Python's JSON scanner. -/
def isJsonWs (c : Char) : Bool := c == ' ' || c == '\t' || c == '\n' || c == '\r'

/-- Skip JSON whitespace. -/
def skipWs (cs : List Char) : List Char := cs.dropWhile isJsonWs

/-- Value of one hexadecimal digit. -/
def hexVal (c : Char) : Option Nat :=
  if '0' ≤ c ∧ c ≤ '9' then some (c.toNat - 48)
  else if 'a' ≤ c ∧ c ≤ 'f' then some (c.toNat - 87)
  else if 'A' ≤ c ∧ c ≤ 'F' then some (c.toNat - 55)
  else none

/-- The single-character JSON string escapes. -/
def escChar (c : Char) : Option Char :=
  match c with
  | '"' => some '"'
  | '\\' => some '\\'
  | '/' => some '/'
  | 'b' => some (Char.ofNat 8)
  | 'f' => some (Char.ofNat 12)
  | 'n' => some (Char.ofNat 10)
  | 'r' => some (Char.ofNat 13)
  | 't' => some (Char.ofNat 9)
  | _ => none

/-- The digits of a decimal literal as a natural number. -/
def digitsToNat (ds : List Char) : Nat :=
  ds.foldl (fun n c => n * 10 + (c.toNat - 48)) 0

/-- Digits-and-exponent step shared by `scanExpTail`: when no digits follow,
the number ends before `orig`; otherwise multiply by the power of ten. -/
def scanExpDigits (q : ℚ) (orig : List Char) (neg : Bool) (rest2 : List Char) :
    ℚ × List Char :=
  if (rest2.takeWhile Char.isDigit).isEmpty then (q, orig)
  else
    (q * (10 : ℚ) ^ (if neg then -(digitsToNat (rest2.takeWhile Char.isDigit) : ℤ)
        else (digitsToNat (rest2.takeWhile Char.isDigit) : ℤ)),
      rest2.dropWhile Char.isDigit)

/-- Scan an optional exponent part (`([eE][-+]?\\d+)?` of the Python number
regex) after the `e`/`E`; `orig` is the input including it. -/
def scanExpTail (q : ℚ) (orig rest : List Char) : ℚ × List Char :=
  scanExpDigits q orig (decide (rest.head? = some '-'))
    (if rest.head? = some '-' ∨ rest.head? = some '+' then rest.tail else rest)

/-- Dispatch on the `e`/`E` of an exponent. -/
def scanExp (q : ℚ) (cs : List Char) : ℚ × List Char :=
  if cs.head? = some 'e' ∨ cs.head? = some 'E' then scanExpTail q cs cs.tail
  else (q, cs)

/-- Fraction digits step: when no digits follow the dot, the fraction group
does not match and the number ends before `orig`. -/
def scanFracDigits (ip : ℚ) (orig tl : List Char) : ℚ × List Char :=
  if (tl.takeWhile Char.isDigit).isEmpty then scanExp ip orig
  else scanExp (ip + (digitsToNat (tl.takeWhile Char.isDigit) : ℚ) /
      (10 : ℚ) ^ (tl.takeWhile Char.isDigit).length) (tl.dropWhile Char.isDigit)

/-- Scan an optional fraction part (`(\\.\\d+)?` of the Python number regex)
followed by the optional exponent. -/
def scanFrac (ip : ℚ) (cs : List Char) : ℚ × List Char :=
  if cs.head? = some '.' then scanFracDigits ip cs cs.tail
  else scanExp ip cs

/-- Scan an unsigned JSON number (`0|[1-9]\\d*` then fraction/exponent). -/
def scanNumCore (cs : List Char) : Option (ℚ × List Char) :=
  match cs with
  | [] => none
  | c :: rest =>
    if c = '0' then some (scanFrac 0 rest)
    else if c.isDigit then
      some (scanFrac (digitsToNat (c :: rest.takeWhile Char.isDigit) : ℚ)
        (rest.dropWhile Char.isDigit))
    else none

/-- Scan a JSON number with optional leading minus sign. -/
def scanNum (cs : List Char) : Option (ℚ × List Char) :=
  if cs.head? = some '-' then (scanNumCore cs.tail).map (fun p => (-p.1, p.2))
  else scanNumCore cs

/-- Length bound for `skipWs`. -/
theorem skipWs_length_le (cs : List Char) : (skipWs cs).length ≤ cs.length :=
  (List.dropWhile_sublist _).length_le

/-- Length bound for `scanExpDigits`. -/
theorem scanExpDigits_snd_length_le (q : ℚ) (orig : List Char) (neg : Bool)
    (rest2 : List Char) (hle : rest2.length ≤ orig.length) :
    (scanExpDigits q orig neg rest2).2.length ≤ orig.length := by
  unfold scanExpDigits
  have h2 := (List.dropWhile_sublist (l := rest2) (p := Char.isDigit)).length_le
  split
  · exact le_refl _
  · simpa using le_trans h2 hle

/-- Length bound for `scanExpTail`. -/
theorem scanExpTail_snd_length_le (q : ℚ) (orig rest : List Char)
    (hle : rest.length ≤ orig.length) :
    (scanExpTail q orig rest).2.length ≤ orig.length := by
  unfold scanExpTail
  refine scanExpDigits_snd_length_le _ _ _ _ ?_
  split
  · exact le_trans (by simp [List.length_tail]) hle
  · exact hle

/-- Length bound for `scanExp`. -/
theorem scanExp_snd_length_le (q : ℚ) (cs : List Char) :
    (scanExp q cs).2.length ≤ cs.length := by
  unfold scanExp
  split
  · exact scanExpTail_snd_length_le _ _ _ (by simp [List.length_tail])
  · exact le_refl _

/-- Length bound for `scanFracDigits`. -/
theorem scanFracDigits_snd_length_le (ip : ℚ) (orig tl : List Char)
    (hle : tl.length ≤ orig.length) :
    (scanFracDigits ip orig tl).2.length ≤ orig.length := by
  unfold scanFracDigits
  have h2 := (List.dropWhile_sublist (l := tl) (p := Char.isDigit)).length_le
  split
  · exact scanExp_snd_length_le _ _
  · exact le_trans (scanExp_snd_length_le _ _) (le_trans h2 hle)

/-- Length bound for `scanFrac`. -/
theorem scanFrac_snd_length_le (ip : ℚ) (cs : List Char) :
    (scanFrac ip cs).2.length ≤ cs.length := by
  unfold scanFrac
  split
  · exact scanFracDigits_snd_length_le _ _ _ (by simp [List.length_tail])
  · exact scanExp_snd_length_le _ _

/-- `scanNumCore` consumes at least one character. -/
theorem scanNumCore_lt (cs : List Char) (q : ℚ) (r : List Char)
    (h : scanNumCore cs = some (q, r)) : r.length < cs.length := by
  rcases cs with _ | ⟨c, rest⟩
  · simp [scanNumCore] at h
  · simp only [scanNumCore] at h
    split at h
    · simp only [Option.some.injEq] at h
      have hr := congrArg Prod.snd h
      simp only [] at hr
      have h1 := scanFrac_snd_length_le 0 rest
      rw [hr] at h1
      simp only [List.length_cons]
      omega
    · split at h
      · simp only [Option.some.injEq] at h
        have hr := congrArg Prod.snd h
        simp only [] at hr
        have h1 := scanFrac_snd_length_le
          (digitsToNat (c :: rest.takeWhile Char.isDigit) : ℚ)
          (rest.dropWhile Char.isDigit)
        have h2 := (List.dropWhile_sublist (l := rest) (p := Char.isDigit)).length_le
        rw [hr] at h1
        simp only [List.length_cons]
        omega
      · exact absurd h (by simp)

/-- `scanNum` consumes at least one character. -/
theorem scanNum_lt (cs : List Char) (q : ℚ) (r : List Char)
    (h : scanNum cs = some (q, r)) : r.length < cs.length := by
  unfold scanNum at h
  split at h
  · rename_i hh
    simp only [Option.map_eq_some'] at h
    obtain ⟨⟨q2, r2⟩, hp, he⟩ := h
    have h1 := scanNumCore_lt cs.tail q2 r2 hp
    simp only [Prod.mk.injEq] at he
    obtain ⟨-, rfl⟩ := he
    rcases cs with _ | ⟨c, rest⟩
    · simp at hh
    · simp only [List.tail_cons] at h1
      simp only [List.length_cons]
      omega
  · exact scanNumCore_lt cs q r h

/-- JSON lexical tokens. -/
inductive JTok where
  | lbrace | rbrace | lbrack | rbrack | colon | comma
  | jstr (s : String)
  | jnum (q : ℚ)
  | jbool (b : Bool)
  | jnull
  | jnan
  | jinf (neg : Bool)
  deriving DecidableEq, Repr

mutual

/-- Tokenize a JSON document: skip whitespace, then read one token and
continue.  Structural delimiters, literals (`true`, `false`, `null` and the
CPython constants `NaN`, `Infinity`, `-Infinity`), strings and numbers; any
other character is a `JSONDecodeError` (`none`). -/
def lexJson (cs : List Char) : Option (List JTok) :=
  match h : skipWs cs with
  | [] => some []
  | '\x7b' :: rest => (lexJson rest).map (fun ts => JTok.lbrace :: ts)
  | '\x7d' :: rest => (lexJson rest).map (fun ts => JTok.rbrace :: ts)
  | '[' :: rest => (lexJson rest).map (fun ts => JTok.lbrack :: ts)
  | ']' :: rest => (lexJson rest).map (fun ts => JTok.rbrack :: ts)
  | ':' :: rest => (lexJson rest).map (fun ts => JTok.colon :: ts)
  | ',' :: rest => (lexJson rest).map (fun ts => JTok.comma :: ts)
  | '"' :: rest => lexStr [] rest
  | 't' :: rest =>
    if "rue".toList.isPrefixOf rest then
      (lexJson (rest.drop 3)).map (fun ts => JTok.jbool true :: ts)
    else none
  | 'f' :: rest =>
    if "alse".toList.isPrefixOf rest then
      (lexJson (rest.drop 4)).map (fun ts => JTok.jbool false :: ts)
    else none
  | 'n' :: rest =>
    if "ull".toList.isPrefixOf rest then
      (lexJson (rest.drop 3)).map (fun ts => JTok.jnull :: ts)
    else none
  | 'N' :: rest =>
    if "aN".toList.isPrefixOf rest then
      (lexJson (rest.drop 2)).map (fun ts => JTok.jnan :: ts)
    else none
  | 'I' :: rest =>
    if "nfinity".toList.isPrefixOf rest then
      (lexJson (rest.drop 7)).map (fun ts => JTok.jinf false :: ts)
    else none
  | '-' :: rest =>
    if "Infinity".toList.isPrefixOf rest then
      (lexJson (rest.drop 8)).map (fun ts => JTok.jinf true :: ts)
    else
      match h2 : scanNum ('-' :: rest) with
      | some (q, r) => (lexJson r).map (fun ts => JTok.jnum q :: ts)
      | none => none
  | c :: rest =>
    match h2 : scanNum (c :: rest) with
    | some (q, r) => (lexJson r).map (fun ts => JTok.jnum q :: ts)
    | none => none
termination_by cs.length
decreasing_by
  all_goals
    (have hle := skipWs_length_le cs; rw [h] at hle)
  all_goals
    (try (have hlt := scanNum_lt _ _ _ h2))
  all_goals simp_all [List.length_cons, List.length_drop]
  all_goals omega

/-- Tokenize the body of a JSON string (the opening quote already consumed):
plain characters (raw control characters below 0x20 are rejected, as with the
default `strict=True`), single-character escapes, and `\uXXXX` escapes with
surrogate-pair combination.  A lone surrogate, which a Python `str` can carry
but a Lean `Char` cannot, is modelled as U+FFFD. -/
def lexStr (acc : List Char) (cs : List Char) : Option (List JTok) :=
  match cs with
  | [] => none
  | '"' :: rest => (lexJson rest).map (fun ts => JTok.jstr (String.mk acc.reverse) :: ts)
  | '\\' :: 'u' :: h1 :: h2 :: h3 :: h4 :: '\\' :: 'u' :: g1 :: g2 :: g3 :: g4 :: rest =>
    match hexVal h1, hexVal h2, hexVal h3, hexVal h4 with
    | some a, some b, some c, some d =>
      if 0xD800 ≤ ((a * 16 + b) * 16 + c) * 16 + d
          ∧ ((a * 16 + b) * 16 + c) * 16 + d < 0xDC00 then
        match hexVal g1, hexVal g2, hexVal g3, hexVal g4 with
        | some a2, some b2, some c2, some d2 =>
          if 0xDC00 ≤ ((a2 * 16 + b2) * 16 + c2) * 16 + d2
              ∧ ((a2 * 16 + b2) * 16 + c2) * 16 + d2 < 0xE000 then
            lexStr (Char.ofNat (0x10000
              + (((a * 16 + b) * 16 + c) * 16 + d - 0xD800) * 0x400
              + (((a2 * 16 + b2) * 16 + c2) * 16 + d2 - 0xDC00)) :: acc) rest
          else lexStr (Char.ofNat 0xFFFD :: acc)
            ('\\' :: 'u' :: g1 :: g2 :: g3 :: g4 :: rest)
        | _, _, _, _ =>
          lexStr (Char.ofNat 0xFFFD :: acc) ('\\' :: 'u' :: g1 :: g2 :: g3 :: g4 :: rest)
      else if 0xDC00 ≤ ((a * 16 + b) * 16 + c) * 16 + d
          ∧ ((a * 16 + b) * 16 + c) * 16 + d < 0xE000 then
        lexStr (Char.ofNat 0xFFFD :: acc) ('\\' :: 'u' :: g1 :: g2 :: g3 :: g4 :: rest)
      else lexStr (Char.ofNat (((a * 16 + b) * 16 + c) * 16 + d) :: acc)
        ('\\' :: 'u' :: g1 :: g2 :: g3 :: g4 :: rest)
    | _, _, _, _ => none
  | '\\' :: 'u' :: h1 :: h2 :: h3 :: h4 :: rest =>
    match hexVal h1, hexVal h2, hexVal h3, hexVal h4 with
    | some a, some b, some c, some d =>
      if 0xD800 ≤ ((a * 16 + b) * 16 + c) * 16 + d
          ∧ ((a * 16 + b) * 16 + c) * 16 + d < 0xE000 then
        lexStr (Char.ofNat 0xFFFD :: acc) rest
      else lexStr (Char.ofNat (((a * 16 + b) * 16 + c) * 16 + d) :: acc) rest
    | _, _, _, _ => none
  | '\\' :: e :: rest =>
    match escChar e with
    | some c => lexStr (c :: acc) rest
    | none => none
  | c :: rest =>
    if c.toNat < 32 then none else lexStr (c :: acc) rest
termination_by cs.length
decreasing_by
  all_goals simp_all [List.length_cons]
  all_goals omega

end

/-- CPython builds JSON objects by successive `dict` assignment: a duplicate
key keeps its first position but takes the later value. -/
def objInsert (kvs : List (String × PyJson)) (k : String) (v : PyJson) :
    List (String × PyJson) :=
  if kvs.any (fun kv => kv.1 == k) then
    kvs.map (fun kv => if kv.1 == k then (k, v) else kv)
  else kvs ++ [(k, v)]

mutual

/-- Parse one JSON value from the token stream.  The fuel only bounds the
recursion depth; `jsonLoads` supplies enough for any input. -/
def parseTokVal : Nat → List JTok → Option (PyJson × List JTok)
  | 0, _ => none
  | fuel + 1, ts =>
    match ts with
    | .lbrace :: .rbrace :: rest => some (.jobj [], rest)
    | .lbrace :: rest => parseTokMembers fuel rest []
    | .lbrack :: .rbrack :: rest => some (.jarr [], rest)
    | .lbrack :: rest => parseTokElems fuel rest []
    | .jstr s :: rest => some (.jstr s, rest)
    | .jnum q :: rest => some (.jnum q, rest)
    | .jbool b :: rest => some (.jbool b, rest)
    | .jnull :: rest => some (.jnull, rest)
    | .jnan :: rest => some (.jnan, rest)
    | .jinf b :: rest => some (.jinf b, rest)
    | _ => none

/-- Parse the members of a JSON object after `{` (at least one member:
the empty object is handled in `parseTokVal`).  After each member a comma
requires another member — trailing commas are rejected, as in Python. -/
def parseTokMembers : Nat → List JTok → List (String × PyJson) →
    Option (PyJson × List JTok)
  | 0, _, _ => none
  | fuel + 1, ts, acc =>
    match ts with
    | .jstr k :: .colon :: rest =>
      match parseTokVal fuel rest with
      | some (v, rest2) =>
        match rest2 with
        | .comma :: rest3 => parseTokMembers fuel rest3 (objInsert acc k v)
        | .rbrace :: rest3 => some (.jobj (objInsert acc k v), rest3)
        | _ => none
      | none => none
    | _ => none

/-- Parse the elements of a JSON array after `[` (at least one element). -/
def parseTokElems : Nat → List JTok → List PyJson → Option (PyJson × List JTok)
  | 0, _, _ => none
  | fuel + 1, ts, acc =>
    match parseTokVal fuel ts with
    | some (v, rest) =>
      match rest with
      | .comma :: rest2 => parseTokElems fuel rest2 (acc ++ [v])
      | .rbrack :: rest2 => some (.jarr (acc ++ [v]), rest2)
      | _ => none
    | none => none

end

/-- Model of Python `json.loads`: lex the document, parse exactly one value,
and require that no tokens remain (`Extra data`); `none` models
`json.JSONDecodeError`.  The fuel `2 * length + 2` dominates the recursion
depth, which grows by at most two per consumed token. -/
def jsonLoads (s : String) : Option PyJson :=
  match lexJson s.toList with
  | none => none
  | some toks =>
    match parseTokVal (2 * toks.length + 2) toks with
    | some (v, []) => some v
    | _ => none

/-- The characters of the placeholder `LOGPROB_TRUE`. -/
def logprobTruePat : List Char := "LOGPROB_TRUE".toList

/-- The characters of the quoted placeholder `"LOGPROB_TRUE"`. -/
def logprobTrueQuoted : List Char := "\"LOGPROB_TRUE\"".toList

/-- utils.py line 117: `template.replace('LOGPROB_TRUE', '"LOGPROB_TRUE"')` —
replace every (left-to-right, non-overlapping) occurrence. -/
def replaceLogprobTrue : List Char → List Char
  | [] => []
  | c :: cs =>
    if logprobTruePat.isPrefixOf (c :: cs) then
      logprobTrueQuoted ++ replaceLogprobTrue ((c :: cs).drop 12)
    else c :: replaceLogprobTrue cs
termination_by l => l.length
decreasing_by
  · simp only [List.length_drop, List.length_cons]
    omega
  · simp only [List.length_cons]
    omega

/-- One character of the regex class `[^" ]` (anything but `"` and space). -/
def rxKeyChar (c : Char) : Bool := c != '"' && c != ' '

/-- One character of the regex class `\s` (the ASCII whitespace characters;
Python's `\s` also matches some further Unicode spaces, which cannot occur
in the templates this development evaluates the regex on). -/
def rxWsChar (c : Char) : Bool :=
  c == ' ' || c == '\t' || c == '\n' || c == '\r'
    || c == Char.ofNat 11 || c == Char.ofNat 12

/-- Try to match the tail `([^" ]+)":\s*LOGPROB_TRUE` of the pattern, the
opening `"` already consumed: the greedy one-or-more key run, the closing
quote and colon, optional whitespace, then the placeholder.  Backtracking
cannot help this pattern, so the greedy runs are definitive. -/
def rxMatchAfterQuote (cs : List Char) : Option (String × List Char) :=
  if (cs.takeWhile rxKeyChar).isEmpty then none
  else
    match cs.dropWhile rxKeyChar with
    | '"' :: ':' :: r2 =>
      if logprobTruePat.isPrefixOf (r2.dropWhile rxWsChar) then
        some (String.mk (cs.takeWhile rxKeyChar), (r2.dropWhile rxWsChar).drop 12)
      else none
    | _ => none

/-- Length bound for `rxMatchAfterQuote`. -/
theorem rxMatchAfterQuote_length_le (cs : List Char) (cap : String) (rest : List Char)
    (h : rxMatchAfterQuote cs = some (cap, rest)) : rest.length ≤ cs.length := by
  unfold rxMatchAfterQuote at h
  split at h
  · exact absurd h (by simp)
  · split at h
    · rename_i r2 heq
      split at h
      · simp only [Option.some.injEq, Prod.mk.injEq] at h
        obtain ⟨-, rfl⟩ := h
        have h1 := (List.dropWhile_sublist (l := cs) (p := rxKeyChar)).length_le
        have h2 := (List.dropWhile_sublist (l := r2) (p := rxWsChar)).length_le
        have h3 := congrArg List.length heq
        simp only [List.length_cons, List.length_drop] at h3 ⊢
        omega
      · exact absurd h (by simp)
    · exact absurd h (by simp)

/-- `re.findall(r'"([^" ]+)":\s*LOGPROB_TRUE', template)` (utils.py lines
131-132): scan left to right, at each `"` attempt a match; on success emit
the captured group and continue after the match. -/
def rxFindAll : List Char → List String
  | [] => []
  | c :: cs =>
    if c = '"' then
      match h : rxMatchAfterQuote cs with
      | some (cap, rest) => cap :: rxFindAll rest
      | none => rxFindAll cs
    else rxFindAll cs
termination_by l => l.length
decreasing_by
  all_goals simp only [List.length_cons]
  all_goals try omega
  all_goals
    (have hq := rxMatchAfterQuote_length_le _ _ _ h
     omega)

/-- The scored-attribute filter of the JSON path (utils.py lines 125-126):
keys whose value is a string that strips (of `"` characters) to
`LOGPROB_TRUE`, in insertion order. -/
def extractFromJson : PyJson → List String
  | .jobj kvs =>
    kvs.filterMap (fun kv =>
      match kv.2 with
      | .jstr s => if stripQuoteChars s == "LOGPROB_TRUE" then some kv.1 else none
      | _ => none)
  | _ => []

/-- utils.py `extract_template_attributes` (lines 95-145): parse the template
as JSON (directly, then with the placeholder quoted), collect the scored
attribute keys, fall back to the regex scan, and raise a `ValueError` when
nothing is found. -/
def extract_template_attributes (template : String) : Except String (List String) :=
  let templateJson :=
    match jsonLoads template with
    | some j => some j
    | none => jsonLoads (String.mk (replaceLogprobTrue template.toList))
  let attributes :=
    match templateJson with
    | some j => extractFromJson j
    | none => []
  if attributes.isEmpty then
    let rx := rxFindAll template.toList
    if rx.isEmpty then
      if pyStrip template == "LOGPROB_TRUE" then
        .error "Template contains only LOGPROB_TRUE token, cannot extract attributes."
      else .error "No LOGPROB_TRUE attributes found in template via JSON or regex"
    else .ok rx
  else .ok attributes

/-! ## Unfolding lemmas for the well-founded definitions

`lexJson`, `lexStr`, `replaceLogprobTrue` and `rxFindAll` are defined by
well-founded recursion, so concrete and symbolic evaluations below go through
these one-step equations. -/

/-- A run of `n` spaces. -/
def spn (n : Nat) : List Char := List.replicate n ' '

theorem skipWs_nonws {c : Char} (h : isJsonWs c = false) (cs : List Char) :
    skipWs (c :: cs) = c :: cs := by
  simp [skipWs, List.dropWhile_cons, h]

theorem skipWs_spn (n : Nat) (cs : List Char) : skipWs (spn n ++ cs) = skipWs cs := by
  induction n with
  | zero => simp [spn]
  | succ k ih =>
    simp only [spn, List.replicate_succ, List.cons_append]
    simp only [skipWs, List.dropWhile_cons]
    rw [show isJsonWs ' ' = true from rfl]
    exact ih

theorem lexJson_nil : lexJson [] = some [] := by
  rw [lexJson]
  rfl

theorem lexJson_spn (n : Nat) (cs : List Char) : lexJson (spn n ++ cs) = lexJson cs := by
  rw [lexJson, lexJson, skipWs_spn]

theorem lexJson_space (cs : List Char) : lexJson (' ' :: cs) = lexJson cs :=
  lexJson_spn 1 cs

theorem lexJson_lbrace (cs : List Char) :
    lexJson ('\x7b' :: cs) = (lexJson cs).map (fun ts => JTok.lbrace :: ts) := by
  rw [lexJson, skipWs_nonws (by decide)]
  rfl

theorem lexJson_rbrace (cs : List Char) :
    lexJson ('\x7d' :: cs) = (lexJson cs).map (fun ts => JTok.rbrace :: ts) := by
  rw [lexJson, skipWs_nonws (by decide)]
  rfl

theorem lexJson_colon (cs : List Char) :
    lexJson (':' :: cs) = (lexJson cs).map (fun ts => JTok.colon :: ts) := by
  rw [lexJson, skipWs_nonws (by decide)]
  rfl

theorem lexJson_comma (cs : List Char) :
    lexJson (',' :: cs) = (lexJson cs).map (fun ts => JTok.comma :: ts) := by
  rw [lexJson, skipWs_nonws (by decide)]
  rfl

theorem lexJson_quote (cs : List Char) : lexJson ('"' :: cs) = lexStr [] cs := by
  rw [lexJson, skipWs_nonws (by decide)]
  rfl

theorem lexJson_true (cs : List Char) :
    lexJson ('t' :: 'r' :: 'u' :: 'e' :: cs) =
      (lexJson cs).map (fun ts => JTok.jbool true :: ts) := by
  rw [lexJson, skipWs_nonws (by decide)]
  simp only [List.isPrefixOf, List.drop]
  norm_num

theorem lexJson_upperL (cs : List Char) : lexJson ('L' :: cs) = none := by
  rw [lexJson, skipWs_nonws (by decide)]
  rfl

theorem lexJson_lowerx (cs : List Char) : lexJson ('x' :: cs) = none := by
  rw [lexJson, skipWs_nonws (by decide)]
  rfl

theorem lexStr_quote (acc cs : List Char) :
    lexStr acc ('"' :: cs) = (lexJson cs).map (fun ts => JTok.jstr (String.mk acc.reverse) :: ts) := by
  rw [lexStr]

theorem lexStr_plain {c : Char} (h1 : c ≠ '"') (h2 : c ≠ '\\') (h3 : 32 ≤ c.toNat)
    (acc cs : List Char) : lexStr acc (c :: cs) = lexStr (c :: acc) cs := by
  rw [lexStr]
  split
  all_goals try (rename_i heq; rw [List.cons.injEq] at heq; exact absurd heq.1 (by simp_all))
  all_goals simp_all
  omega

/-- A character that may appear verbatim inside a lexed JSON string. -/
def plainStrChar (c : Char) : Prop := c ≠ '"' ∧ c ≠ '\\' ∧ 32 ≤ c.toNat

instance (c : Char) : Decidable (plainStrChar c) := by
  unfold plainStrChar
  infer_instance

theorem lexStr_chain (pre : List Char) (hpre : ∀ c ∈ pre, plainStrChar c)
    (acc cs : List Char) : lexStr acc (pre ++ cs) = lexStr (pre.reverse ++ acc) cs := by
  induction pre generalizing acc with
  | nil => simp
  | cons c rest ih =>
    have hc := hpre c (by simp)
    rw [List.cons_append, lexStr_plain hc.1 hc.2.1 hc.2.2]
    rw [ih (fun d hd => hpre d (by simp [hd])) (c :: acc)]
    simp

theorem replaceLogprobTrue_nil : replaceLogprobTrue [] = [] := by
  rw [replaceLogprobTrue]

theorem replaceLogprobTrue_cons_ne {c : Char} (h : c ≠ 'L') (cs : List Char) :
    replaceLogprobTrue (c :: cs) = c :: replaceLogprobTrue cs := by
  rw [replaceLogprobTrue]
  rw [if_neg]
  intro hpre
  rw [show logprobTruePat = 'L' :: "OGPROB_TRUE".toList from rfl] at hpre
  simp only [List.isPrefixOf, Bool.and_eq_true, beq_iff_eq] at hpre
  exact h hpre.1.symm

theorem replaceLogprobTrue_chain (pre : List Char) (hpre : 'L' ∉ pre) (cs : List Char) :
    replaceLogprobTrue (pre ++ cs) = pre ++ replaceLogprobTrue cs := by
  induction pre with
  | nil => simp
  | cons c rest ih =>
    have hc : c ≠ 'L' := by
      intro hh
      exact hpre (by simp [hh])
    rw [List.cons_append, replaceLogprobTrue_cons_ne hc _]
    rw [ih (fun hh => hpre (List.mem_cons_of_mem _ hh))]
    rfl

theorem replaceLogprobTrue_needle (cs : List Char) :
    replaceLogprobTrue (logprobTruePat ++ cs) =
      logprobTrueQuoted ++ replaceLogprobTrue cs := by
  rw [show logprobTruePat ++ cs = 'L' :: ("OGPROB_TRUE".toList ++ cs) from rfl]
  rw [replaceLogprobTrue]
  rw [if_pos]
  · have hd : ('L' :: ("OGPROB_TRUE".toList ++ cs)).drop 12 = cs := by
      rw [show ('L' :: ("OGPROB_TRUE".toList ++ cs)) = logprobTruePat ++ cs from rfl]
      rw [show (12 : Nat) = logprobTruePat.length from rfl]
      exact List.drop_left _ _
    rw [hd]
  · rw [show ('L' :: ("OGPROB_TRUE".toList ++ cs)) = logprobTruePat ++ cs from rfl]
    rw [List.isPrefixOf_iff_prefix]
    exact List.prefix_append _ _

theorem rxFindAll_nil : rxFindAll [] = [] := by
  rw [rxFindAll]

theorem rxFindAll_cons_ne {c : Char} (h : c ≠ '"') (cs : List Char) :
    rxFindAll (c :: cs) = rxFindAll cs := by
  rw [rxFindAll]
  rw [if_neg h]

theorem rxFindAll_chain (pre : List Char) (hpre : '"' ∉ pre) (cs : List Char) :
    rxFindAll (pre ++ cs) = rxFindAll cs := by
  induction pre with
  | nil => simp
  | cons c rest ih =>
    have hc : c ≠ '"' := by
      intro hh
      exact hpre (by simp [hh])
    rw [List.cons_append, rxFindAll_cons_ne hc _]
    exact ih (fun hh => hpre (List.mem_cons_of_mem _ hh))

theorem rxFindAll_quote_some {cs : List Char} {cap : String} {rest : List Char}
    (h : rxMatchAfterQuote cs = some (cap, rest)) :
    rxFindAll ('"' :: cs) = cap :: rxFindAll rest := by
  rw [rxFindAll]
  rw [if_pos rfl]
  split
  · rename_i cap2 rest2 h2
    rw [h] at h2
    simp only [Option.some.injEq, Prod.mk.injEq] at h2
    rw [h2.1, h2.2]
  · rename_i h2
    rw [h] at h2
    exact absurd h2 (by simp)

theorem rxFindAll_quote_none {cs : List Char} (h : rxMatchAfterQuote cs = none) :
    rxFindAll ('"' :: cs) = rxFindAll cs := by
  rw [rxFindAll]
  rw [if_pos rfl]
  split
  · rename_i cap2 rest2 h2
    rw [h] at h2
    exact absurd h2 (by simp)
  · rfl

/-! ## Scanner lemmas -/

/-- The cursor carried by a Phase C result. -/
def vsrCursor : ValueScanResult → Nat
  | .found _ _ c => c
  | .notFound c => c

theorem keyScanFrom_lt (attr : String) :
    ∀ (l : List TokenLP) (k : Nat) (acc : String) (c : Nat),
      keyScanFrom attr l k acc = some c → k < c := by
  intro l
  induction l with
  | nil => intro k acc c h; simp [keyScanFrom] at h
  | cons tk rest ih =>
    intro k acc c h
    simp only [keyScanFrom] at h
    split at h
    · exact absurd h (by simp)
    · split at h
      · simp only [Option.some.injEq] at h
        omega
      · split at h
        · exact absurd h (by simp)
        · have := ih (k + 1) _ c h
          omega

theorem findKeyEnd_lt (attr : String) :
    ∀ (l : List TokenLP) (j : Nat) (c : Nat), findKeyEnd attr l j = some c → j < c := by
  intro l
  induction l with
  | nil => intro j c h; simp [findKeyEnd] at h
  | cons tk rest ih =>
    intro j c h
    simp only [findKeyEnd] at h
    split at h
    · rename_i hk
      simp only [Option.some.injEq] at h
      subst h
      exact keyScanFrom_lt attr _ _ _ _ hk
    · have := ih (j + 1) c h
      omega

theorem findColon_lt (cs0 : Nat) :
    ∀ (l : List TokenLP) (i : Nat) (v : Nat), findColon cs0 l i = some v → i < v := by
  intro l
  induction l with
  | nil => intro i v h; simp [findColon] at h
  | cons tk rest ih =>
    intro i v h
    simp only [findColon] at h
    split at h
    · simp only [Option.some.injEq] at h
      omega
    · split at h
      · exact absurd h (by simp)
      · have := ih (i + 1) v h
        omega

theorem findValue_cursor_ge (vs0 : Nat) :
    ∀ (l : List TokenLP) (i : Nat), i ≤ vsrCursor (findValue vs0 l i) := by
  intro l
  induction l with
  | nil => intro i; simp [findValue, vsrCursor]
  | cons tk rest ih =>
    intro i
    simp only [findValue]
    split
    · simp [vsrCursor]
    · split
      · simp [vsrCursor]
      · have := ih (i + 1)
        omega

theorem scanOneAttribute_cursor_mono (tokens : List TokenLP) (cursor : Nat)
    (attr : String) : cursor ≤ (scanOneAttribute tokens cursor attr).cursor := by
  unfold scanOneAttribute
  rcases hk : findKeyEnd attr (tokens.drop cursor) cursor with _ | cs0
  · simp only [hk]
    omega
  · have hk1 := findKeyEnd_lt attr _ _ _ hk
    simp only [hk]
    rcases hc : findColon cs0 (tokens.drop cs0) cs0 with _ | vs0
    · simp only [hc]
      omega
    · have hc1 := findColon_lt cs0 _ _ _ hc
      simp only [hc]
      split
      · rename_i hlen
        have hv := findValue_cursor_ge vs0 (tokens.drop vs0) vs0
        rcases hval : findValue vs0 (tokens.drop vs0) vs0 with ⟨txt, lp, cur⟩ | cur
        · rw [hval] at hv
          simp only [vsrCursor] at hv
          simp only [hval]
          omega
        · rw [hval] at hv
          simp only [vsrCursor] at hv
          simp only [hval]
          omega
      · simp

theorem scanOneAttribute_name (tokens : List TokenLP) (cursor : Nat) (attr : String) :
    (scanOneAttribute tokens cursor attr).score.name = attr := by
  unfold scanOneAttribute
  rcases hk : findKeyEnd attr (tokens.drop cursor) cursor with _ | cs0
  · simp only [hk]
  · simp only [hk]
    rcases hc : findColon cs0 (tokens.drop cs0) cs0 with _ | vs0
    · simp only [hc]
    · simp only [hc]
      split
      · rcases hval : findValue vs0 (tokens.drop vs0) vs0 with ⟨txt, lp, cur⟩ | cur <;>
          simp only [hval]
      · simp

theorem scanOneAttribute_not_found (tokens : List TokenLP) (cursor : Nat) (attr : String)
    (h : (scanOneAttribute tokens cursor attr).found = false) :
    (scanOneAttribute tokens cursor attr).score = ⟨attr, 0, notFoundMsg attr⟩ := by
  unfold scanOneAttribute at h ⊢
  rcases hk : findKeyEnd attr (tokens.drop cursor) cursor with _ | cs0
  · simp only [hk]
  · simp only [hk] at h ⊢
    rcases hc : findColon cs0 (tokens.drop cs0) cs0 with _ | vs0
    · simp only [hc]
    · simp only [hc] at h ⊢
      split at h
      · rename_i hlen
        rcases hval : findValue vs0 (tokens.drop vs0) vs0 with ⟨txt, lp, cur⟩ | cur
        · rw [hval] at h
          simp at h
        · rw [if_pos hlen]
      · rename_i hlen
        rw [if_neg hlen]

/-- Sum of the scores of the found entries. -/
def foundScoresSum (l : List (AttributeScore × Bool)) : ℚ :=
  ((l.filter (fun e => e.2)).map (fun e => e.1.score)).sum

/-- Number of found entries. -/
def foundCount (l : List (AttributeScore × Bool)) : Nat :=
  (l.filter (fun e => e.2)).length

/-- The bookkeeping invariant of the scan state: the running total and count
agree with the entry list, and a not-found entry carries the default score
and explanation. -/
def ScanInv (st : ScanState) : Prop :=
  st.total = foundScoresSum st.entries
    ∧ st.numFound = foundCount st.entries
    ∧ ∀ e ∈ st.entries, e.2 = false →
        e.1.score = 0 ∧ e.1.explanation = notFoundMsg e.1.name

theorem foundScoresSum_append (l : List (AttributeScore × Bool))
    (e : AttributeScore × Bool) :
    foundScoresSum (l ++ [e]) = foundScoresSum l + (if e.2 then e.1.score else 0) := by
  simp only [foundScoresSum, List.filter_append]
  rcases he : e.2 with _ | _
  · simp [List.filter, he]
  · simp [List.filter, he]

theorem foundCount_append (l : List (AttributeScore × Bool)) (e : AttributeScore × Bool) :
    foundCount (l ++ [e]) = foundCount l + (if e.2 then 1 else 0) := by
  simp only [foundCount, List.filter_append]
  rcases he : e.2 with _ | _
  · simp [List.filter, he]
  · simp [List.filter, he]

theorem ScanInv_scanStep (tokens : List TokenLP) (st : ScanState) (attr : String)
    (h : ScanInv st) : ScanInv (scanStep tokens st attr) := by
  obtain ⟨h1, h2, h3⟩ := h
  refine ⟨?_, ?_, ?_⟩
  · simp only [scanStep, foundScoresSum_append]
    rcases hf : (scanOneAttribute tokens st.cursor attr).found with _ | _
    · simp [hf, h1]
    · simp [hf, h1]
  · simp only [scanStep, foundCount_append]
    rcases hf : (scanOneAttribute tokens st.cursor attr).found with _ | _
    · simp [hf, h2]
    · simp [hf, h2]
  · intro e he hef
    simp only [scanStep, List.mem_append, List.mem_singleton] at he
    rcases he with he | he
    · exact h3 e he hef
    · subst he
      simp only [] at hef
      have := scanOneAttribute_not_found tokens st.cursor attr hef
      rw [this]
      simp [this, notFoundMsg]

theorem ScanInv_foldl (tokens : List TokenLP) :
    ∀ (attrs : List String) (st : ScanState), ScanInv st →
      ScanInv (attrs.foldl (scanStep tokens) st) := by
  intro attrs
  induction attrs with
  | nil => intro st h; exact h
  | cons a rest ih =>
    intro st h
    exact ih _ (ScanInv_scanStep tokens st a h)

theorem scanAttributes_inv (attrs : List String) (tokens : List TokenLP) :
    ScanInv (scanAttributes attrs tokens) := by
  exact ScanInv_foldl tokens attrs _ ⟨rfl, rfl, by simp⟩

theorem scan_foldl_names (tokens : List TokenLP) :
    ∀ (attrs : List String) (st : ScanState),
      (attrs.foldl (scanStep tokens) st).entries.map (fun e => e.1.name)
        = st.entries.map (fun e => e.1.name) ++ attrs := by
  intro attrs
  induction attrs with
  | nil => intro st; simp
  | cons a rest ih =>
    intro st
    rw [List.foldl_cons, ih]
    simp only [scanStep, List.map_append, List.map_cons, List.map_nil]
    rw [scanOneAttribute_name]
    simp

theorem scanAttributes_names (attrs : List String) (tokens : List TokenLP) :
    (scanAttributes attrs tokens).entries.map (fun e => e.1.name) = attrs := by
  have := scan_foldl_names tokens attrs ⟨[], 0, 0, 0⟩
  simpa [scanAttributes] using this

/-! ## Claim theorems: the scanner (C2, C3, C4, C9, C10) -/

/-- Arithmetic mean of the scores of a list of `AttributeScore`s. -/
def meanScores (l : List AttributeScore) : ℚ :=
  ((l.map (fun a => a.score)).sum) / (l.length : ℚ)

/-- C10: the scan of `generate_and_evaluate_output` is total: it produces
exactly one `AttributeScore` per attribute, named like the attribute list in
order; an attribute whose value token is not located gets score `0.0` and a
not-found explanation, and only found attributes enter the aggregate mean. -/
theorem c10_scanner_totality (attrs : List String) (tokens : List TokenLP) :
    (scanAttributes attrs tokens).entries.length = attrs.length
    ∧ (scanAttributes attrs tokens).entries.map (fun e => e.1.name) = attrs
    ∧ (∀ e ∈ (scanAttributes attrs tokens).entries, e.2 = false →
        e.1.score = 0 ∧ e.1.explanation = notFoundMsg e.1.name)
    ∧ finalScore (scanAttributes attrs tokens)
        = (if 0 < foundCount (scanAttributes attrs tokens).entries
            then foundScoresSum (scanAttributes attrs tokens).entries
              / (foundCount (scanAttributes attrs tokens).entries : ℚ)
            else 0) := by
  obtain ⟨h1, h2, h3⟩ := scanAttributes_inv attrs tokens
  refine ⟨?_, scanAttributes_names attrs tokens, h3, ?_⟩
  · have := congrArg List.length (scanAttributes_names attrs tokens)
    simpa using this
  · rw [finalScore, h1, h2]

/-- Concrete scan helper: attributes `["a","b"]` over a stream containing only
`{"a": true}`; `a` is found with the boolean token's logprob, `b` is not. -/
theorem scanAB_partial (lpa lpb lp lpd : ℚ) :
    scanAttributes ["a", "b"] [⟨"\x7b\"a\"", lpa⟩, ⟨":", lpb⟩, ⟨" true", lp⟩, ⟨"\x7d", lpd⟩]
      = ⟨[(⟨"a", lp, foundMsg " true" "a"⟩, true), (⟨"b", 0, notFoundMsg "b"⟩, false)],
          0 + lp, 1, 3⟩ := rfl

/-- Concrete scan helper: both attributes found. -/
theorem scanAB_full (lpa lpb lp1 lpc lpd lpe lp2 lpf : ℚ) :
    scanAttributes ["a", "b"]
        [⟨"\x7b\"a\"", lpa⟩, ⟨":", lpb⟩, ⟨" true", lp1⟩, ⟨",", lpc⟩,
         ⟨" \"b\"", lpd⟩, ⟨":", lpe⟩, ⟨" true", lp2⟩, ⟨"\x7d", lpf⟩]
      = ⟨[(⟨"a", lp1, foundMsg " true" "a"⟩, true), (⟨"b", lp2, foundMsg " true" "b"⟩, true)],
          0 + lp1 + lp2, 2, 7⟩ := rfl

/-- Concrete scan helper: empty token stream. -/
theorem scanA_empty :
    scanAttributes ["a"] [] = ⟨[(⟨"a", 0, notFoundMsg "a"⟩, false)], 0, 0, 0⟩ := rfl

/-- C2 counterexample: for attributes `["a","b"]` and an evaluation stream
containing only `{"a": true}` (with logprob `-1/2` on the boolean token), the
`RankedOutput.logprob` is `-1/2` — the mean of the *found* scores — while the
mean of ALL `attribute_scores` entries (including `b`'s not-found `0.0` entry)
is `-1/4`; and with zero scored attributes the unit returns a `RankedOutput`
with the default aggregate `0.0` instead of failing with an error. -/
theorem c2_counterexample :
    (evaluateOutput ["a", "b"]
        [⟨"\x7b\"a\"", -1/10⟩, ⟨":", -1/5⟩, ⟨" true", -1/2⟩, ⟨"\x7d", -1/10⟩]
        "gen" "eval" 0).logprob = -1/2
    ∧ meanScores ((evaluateOutput ["a", "b"]
        [⟨"\x7b\"a\"", -1/10⟩, ⟨":", -1/5⟩, ⟨" true", -1/2⟩, ⟨"\x7d", -1/10⟩]
        "gen" "eval" 0).attribute_scores) = -1/4
    ∧ (-1/2 : ℚ) ≠ -1/4
    ∧ (evaluateOutput ["a"] [] "gen" "eval" 0).logprob = 0
    ∧ (evaluateOutput ["a"] [] "gen" "eval" 0).attribute_scores
        = [⟨"a", 0, notFoundMsg "a"⟩] := by
  refine ⟨?_, ?_, by norm_num, ?_, ?_⟩
  · simp only [evaluateOutput, scanAB_partial, finalScore]
    norm_num
  · simp only [evaluateOutput, scanAB_partial, meanScores]
    norm_num
  · simp only [evaluateOutput, scanA_empty, finalScore]
    norm_num
  · simp only [evaluateOutput, scanA_empty]
    rfl

/-- C2 (amended): the unit's aggregate `logprob` is the arithmetic mean of
the scores of the FOUND attributes (not-found entries are excluded); when
every attribute is found it equals the mean of all `attribute_scores`
entries (e.g. scores `[-1/2, -9/10]` yield exactly `-7/10`); when zero
attributes were scored the aggregate defaults to `0.0` and the unit still
returns a `RankedOutput` rather than raising. -/
theorem c2_aggregate_mean_of_found (attrs : List String) (tokens : List TokenLP) :
    finalScore (scanAttributes attrs tokens)
      = (if 0 < foundCount (scanAttributes attrs tokens).entries
          then foundScoresSum (scanAttributes attrs tokens).entries
            / (foundCount (scanAttributes attrs tokens).entries : ℚ)
          else 0)
    ∧ ((∀ e ∈ (scanAttributes attrs tokens).entries, e.2 = true) →
        finalScore (scanAttributes attrs tokens)
          = (if (scanAttributes attrs tokens).entries.isEmpty then 0
              else meanScores ((scanAttributes attrs tokens).entries.map Prod.fst)))
    ∧ (evaluateOutput ["a", "b"]
        [⟨"\x7b\"a\"", -1/10⟩, ⟨":", -1/5⟩, ⟨" true", -1/2⟩, ⟨",", -1/10⟩,
         ⟨" \"b\"", -1/10⟩, ⟨":", -1/5⟩, ⟨" true", -9/10⟩, ⟨"\x7d", -1/10⟩]
        "gen" "eval" 0).logprob = -7/10
    ∧ (evaluateOutput ["a"] [] "gen" "eval" 0).logprob = 0 := by
  obtain ⟨h1, h2, h3⟩ := scanAttributes_inv attrs tokens
  refine ⟨?_, ?_, ?_, ?_⟩
  · rw [finalScore, h1, h2]
  · intro hall
    have hfilter : (scanAttributes attrs tokens).entries.filter (fun e => e.2)
        = (scanAttributes attrs tokens).entries := by
      rw [List.filter_eq_self]
      intro e he
      simp [hall e he]
    rcases hemp : (scanAttributes attrs tokens).entries with _ | ⟨e, rest⟩
    · rw [finalScore, h2, foundCount, hemp]
      simp
    · have hpos : 0 < foundCount (scanAttributes attrs tokens).entries := by
        rw [foundCount, hfilter, hemp]
        simp
      rw [finalScore, h1, h2, if_pos hpos, if_neg (by simp [hemp])]
      simp only [foundScoresSum, foundCount, meanScores, hfilter, List.map_map,
        List.length_map]
      rw [hemp]
      have hmc : List.map ((fun a : AttributeScore => a.score) ∘ Prod.fst)
          (e :: rest) = List.map (fun e : AttributeScore × Bool => e.1.score) (e :: rest) :=
        List.map_congr_left (fun _ _ => rfl)
      rw [hmc]
  · simp only [evaluateOutput, scanAB_full, finalScore]
    norm_num
  · simp only [evaluateOutput, scanA_empty, finalScore]
    norm_num

/-- C2 amended witness at a concrete all-found input. -/
theorem c2_aggregate_mean_of_found_witness :
    finalScore (scanAttributes ["a", "b"]
        [⟨"\x7b\"a\"", -1/10⟩, ⟨":", -1/5⟩, ⟨" true", -1/2⟩, ⟨",", -1/10⟩,
         ⟨" \"b\"", -1/10⟩, ⟨":", -1/5⟩, ⟨" true", -9/10⟩, ⟨"\x7d", -1/10⟩])
      = (if (scanAttributes ["a", "b"]
            [⟨"\x7b\"a\"", -1/10⟩, ⟨":", -1/5⟩, ⟨" true", -1/2⟩, ⟨",", -1/10⟩,
             ⟨" \"b\"", -1/10⟩, ⟨":", -1/5⟩, ⟨" true", -9/10⟩, ⟨"\x7d", -1/10⟩]).entries.isEmpty
          then 0
          else meanScores ((scanAttributes ["a", "b"]
            [⟨"\x7b\"a\"", -1/10⟩, ⟨":", -1/5⟩, ⟨" true", -1/2⟩, ⟨",", -1/10⟩,
             ⟨" \"b\"", -1/10⟩, ⟨":", -1/5⟩, ⟨" true", -9/10⟩, ⟨"\x7d", -1/10⟩]).entries.map
              Prod.fst)) :=
  (c2_aggregate_mean_of_found ["a", "b"]
    [⟨"\x7b\"a\"", -1/10⟩, ⟨":", -1/5⟩, ⟨" true", -1/2⟩, ⟨",", -1/10⟩,
     ⟨" \"b\"", -1/10⟩, ⟨":", -1/5⟩, ⟨" true", -9/10⟩, ⟨"\x7d", -1/10⟩]).2.1
    (by rw [scanAB_full]; simp)

/-! ## C3: single-attribute exact match -/

/-- Phase C accepts any head token whose normalized text is a boolean word. -/
theorem findValue_bool (vs0 i : Nat) (t : String) (lp : ℚ) (rest : List TokenLP)
    (h : normalizeBoolTok t = "true" ∨ normalizeBoolTok t = "false") :
    findValue vs0 (⟨t, lp⟩ :: rest) i = .found t lp (i + 1) := by
  have hb : (normalizeBoolTok t == "true" || normalizeBoolTok t == "false") = true := by
    rcases h with h | h <;> simp [h]
  simp [findValue, hb]

/-- Scanning `"test"` over the split `['\x7b"test"', ':', t, '\x7d']` at cursor 0,
for a symbolic value token `t`, reduces to a case split on Phase C. -/
theorem scanOneAttribute_testSplit (t : String) (lpa lpb lp lpd : ℚ)
    (h : normalizeBoolTok t = "true" ∨ normalizeBoolTok t = "false") :
    scanOneAttribute [⟨"\x7b\"test\"", lpa⟩, ⟨":", lpb⟩, ⟨t, lp⟩, ⟨"\x7d", lpd⟩] 0 "test"
      = ⟨⟨"test", lp, foundMsg t "test"⟩, true, 3⟩ := by
  have hf := findValue_bool 2 2 t lp [⟨"\x7d", lpd⟩] h
  have hstep : scanOneAttribute [⟨"\x7b\"test\"", lpa⟩, ⟨":", lpb⟩, ⟨t, lp⟩, ⟨"\x7d", lpd⟩] 0 "test"
      = match findValue 2 [(⟨t, lp⟩ : TokenLP), ⟨"\x7d", lpd⟩] 2 with
        | .found txt l c => ⟨⟨"test", l, foundMsg txt "test"⟩, true, c⟩
        | .notFound c => ⟨⟨"test", 0, notFoundMsg "test"⟩, false, c⟩ := rfl
  rw [hstep, hf]

/-- C3 counterexample: when the boolean value itself is split across two
tokens (`' tr'`, `'ue'`), the scanner finds no value token for `"test"` and
records score `0.0` with the not-found explanation — even though the
concatenated token texts spell exactly `\x7b"test": true\x7d`, so this IS a
token stream "representing `\x7b"test": true\x7d` split arbitrarily". -/
theorem c3_counterexample :
    (scanAttributes ["test"]
        [⟨"\x7b\"test\"", -1⟩, ⟨":", -1⟩, ⟨" tr", -2⟩, ⟨"ue", -1⟩, ⟨"\x7d", -1⟩]).entries
      = [(⟨"test", 0, notFoundMsg "test"⟩, false)]
    ∧ "\x7b\"test\"" ++ ":" ++ " tr" ++ "ue" ++ "\x7d" = "\x7b\"test\": true\x7d" :=
  ⟨rfl, rfl⟩

/-- C3 (amended): for attributes `["test"]` and the token split
`['\x7b"test"', ':', t, '\x7d']` whose value fragment `t` is a SINGLE token with
trimmed, lower-cased, quote-stripped text `"true"` or `"false"`, the scanner
returns exactly one `AttributeScore` named `"test"` whose score is the
logprob paired with `t`; the claim's "split arbitrarily" does not hold when
the boolean word itself is split across tokens (see the counterexample). -/
theorem c3_single_attribute_exact (t : String) (lpa lpb lp lpd : ℚ)
    (h : normalizeBoolTok t = "true" ∨ normalizeBoolTok t = "false") :
    (scanAttributes ["test"]
        [⟨"\x7b\"test\"", lpa⟩, ⟨":", lpb⟩, ⟨t, lp⟩, ⟨"\x7d", lpd⟩]).entries
      = [(⟨"test", lp, foundMsg t "test"⟩, true)] := by
  have hone := scanOneAttribute_testSplit t lpa lpb lp lpd h
  show (scanStep [⟨"\x7b\"test\"", lpa⟩, ⟨":", lpb⟩, ⟨t, lp⟩, ⟨"\x7d", lpd⟩]
      ⟨[], 0, 0, 0⟩ "test").entries = _
  rw [scanStep]
  simp only [hone]
  rfl

/-- C3 amended witness at the concrete split of the spec's example. -/
theorem c3_single_attribute_exact_witness :
    (scanAttributes ["test"]
        [⟨"\x7b\"test\"", -1⟩, ⟨":", -1⟩, ⟨" true", -2⟩, ⟨"\x7d", -1⟩]).entries
      = [(⟨"test", -2, foundMsg " true" "test"⟩, true)] :=
  c3_single_attribute_exact " true" (-1) (-1) (-2) (-1) (Or.inl (by decide))

/-! ## C4: the scanner cursor is forward-only -/

/-- C4: the scanner cursor (`current_token_stream_idx`) never moves backward
across an attribute iteration, so a token consumed for an earlier attribute
is never re-examined; concretely, for attributes `["a","b"]` over tokens for
`\x7b"a": true, "b": false\x7d`, `b`'s score is the logprob of the SECOND
boolean token — also when both boolean tokens carry the identical text
`' true'`, `b` gets the second token's logprob `lp2`, never `lp1`. -/
theorem c4_cursor_forward_only (lp1 lp2 : ℚ) :
    (∀ (tokens : List TokenLP) (st : ScanState) (attr : String),
        st.cursor ≤ (scanStep tokens st attr).cursor)
    ∧ (scanAttributes ["a", "b"]
        [⟨"\x7b\"a\"", -1⟩, ⟨":", -1⟩, ⟨" true", lp1⟩, ⟨",", -1⟩,
         ⟨" \"b\"", -1⟩, ⟨":", -1⟩, ⟨" false", lp2⟩, ⟨"\x7d", -1⟩]).entries
        = [(⟨"a", lp1, foundMsg " true" "a"⟩, true),
           (⟨"b", lp2, foundMsg " false" "b"⟩, true)]
    ∧ (scanAttributes ["a", "b"]
        [⟨"\x7b\"a\"", -1⟩, ⟨":", -1⟩, ⟨" true", lp1⟩, ⟨",", -1⟩,
         ⟨" \"b\"", -1⟩, ⟨":", -1⟩, ⟨" true", lp2⟩, ⟨"\x7d", -1⟩]).entries
        = [(⟨"a", lp1, foundMsg " true" "a"⟩, true),
           (⟨"b", lp2, foundMsg " true" "b"⟩, true)] := by
  refine ⟨?_, rfl, rfl⟩
  intro tokens st attr
  exact scanOneAttribute_cursor_mono tokens st.cursor attr

/-! ## C9: suspicious zero logprob -/

/-- An attribute scored by one adapter-scan iteration never carries score
`0`: the `lp = 0` branch raises the suspicious-zero `ValueError` instead. -/
theorem adapterScanOne_ok (tokens : List TokenLP) (cursor : Nat) (attr : String)
    (s : AttributeScore) (cur : Nat)
    (h : adapterScanOne tokens cursor attr = .ok (s, cur)) : s.score ≠ 0 := by
  unfold adapterScanOne at h
  rcases hk : adapterFindKeyEnd attr (tokens.drop cursor) cursor with _ | cs0
  · simp only [hk] at h
    cases h
  · simp only [hk] at h
    rcases hc : findColon cs0 (tokens.drop cs0) cs0 with _ | vs0
    · simp only [hc] at h
      cases h
    · simp only [hc] at h
      split at h
      · split at h
        · split at h
          · cases h
          · rename_i hlp
            simp only [Except.ok.injEq, Prod.mk.injEq] at h
            obtain ⟨hs, _⟩ := h
            rw [← hs]
            simpa using hlp
        · cases h
      · cases h

/-- Every score returned by the adapter's attribute loop is nonzero. -/
theorem adapterScanGo_ne_zero (tokens : List TokenLP) :
    ∀ (attrs : List String) (cur : Nat) (scores : List AttributeScore),
      adapterScanGo tokens attrs cur = .ok scores → ∀ s ∈ scores, s.score ≠ 0
  | [], _, scores, h => by
      simp only [adapterScanGo] at h
      cases h
      intro s hs
      simp at hs
  | attr :: more, cur, scores, h => by
      simp only [adapterScanGo] at h
      split at h
      · cases h
      · rename_i s0 cur2 h1
        split at h
        · cases h
        · rename_i rest h2
          cases h
          intro s hs
          rcases List.mem_cons.mp hs with hh | hh
          · rw [hh]
            exact adapterScanOne_ok tokens cur attr s0 cur2 h1
          · exact adapterScanGo_ne_zero tokens more cur2 rest h2 s hh

/-- C9 counterexample: the RANKER scanner (Phase C of
`generate_and_evaluate_output`) silently accepts a located boolean token with
logprob exactly `0.0` as the attribute's score — the entry is recorded as
found with score `0` and a normal found-explanation, with no flag or error —
while the adapter's `score_text_attributes` raises the suspicious-zero
`ValueError` on the very same stream. -/
theorem c9_counterexample :
    (scanAttributes ["test"]
        [⟨"\x7b\"test\"", -1⟩, ⟨":", -1⟩, ⟨" true", 0⟩, ⟨"\x7d", -1⟩]).entries
      = [(⟨"test", 0, foundMsg " true" "test"⟩, true)]
    ∧ score_text_attributes ["test"]
        [⟨"\x7b\"test\"", -1⟩, ⟨":", -1⟩, ⟨" true", 0⟩, ⟨"\x7d", -1⟩]
      = .error (suspiciousZeroMsg " true" "test") :=
  ⟨rfl, rfl⟩

/-- C9 (amended): only the adapter (`LiteLLMAdapter.score_text_attributes`)
surfaces a located boolean token with logprob exactly `0.0` as an error: any
attribute list it scores successfully contains no score equal to `0`; the
ranker's own scanner accepts such a token silently (see counterexample). -/
theorem c9_suspicious_zero_raises (attrs : List String) (tokens : List TokenLP)
    (scores : List AttributeScore)
    (h : score_text_attributes attrs tokens = .ok scores) :
    ∀ s ∈ scores, s.score ≠ 0 :=
  adapterScanGo_ne_zero tokens attrs 0 scores h

/-- C9 amended witness at a concrete successful adapter scan. -/
theorem c9_suspicious_zero_raises_witness :
    (⟨"test", -1, adapterFoundMsg " true" "test" (-1)⟩ : AttributeScore).score ≠ 0 :=
  c9_suspicious_zero_raises ["test"]
    [⟨"\x7b\"test\"", -1⟩, ⟨":", -1⟩, ⟨" true", -1⟩, ⟨"\x7d", -1⟩]
    [⟨"test", -1, adapterFoundMsg " true" "test" (-1)⟩] rfl
    ⟨"test", -1, adapterFoundMsg " true" "test" (-1)⟩ (by simp)

/-! ## C5: descending stable sort -/

/-- The strengthened descending order: strictly greater logprob, or equal
logprob with strictly smaller original index (the stability tie-break). -/
def rankOrder (a b : RankedOutput) : Prop :=
  b.logprob < a.logprob ∨ (a.logprob = b.logprob ∧ a.index < b.index)

theorem rankOrder_le {a b : RankedOutput} (h : rankOrder a b) :
    b.logprob ≤ a.logprob := by
  rcases h with h | ⟨h, _⟩
  · exact le_of_lt h
  · exact le_of_eq h.symm

theorem mem_insertByLogprobDesc (x y : RankedOutput) (l : List RankedOutput) :
    y ∈ insertByLogprobDesc x l ↔ y = x ∨ y ∈ l := by
  induction l with
  | nil => simp [insertByLogprobDesc]
  | cons z zs ih =>
    simp only [insertByLogprobDesc]
    split
    · simp
    · simp only [List.mem_cons, ih]
      tauto

theorem insertByLogprobDesc_perm (x : RankedOutput) (l : List RankedOutput) :
    (insertByLogprobDesc x l).Perm (x :: l) := by
  induction l with
  | nil => simp [insertByLogprobDesc]
  | cons z zs ih =>
    simp only [insertByLogprobDesc]
    split
    · exact List.Perm.refl _
    · exact (ih.cons z).trans (List.Perm.swap x z zs)

theorem sort_ranked_outputs_perm (l : List RankedOutput) :
    (sort_ranked_outputs l).Perm l := by
  induction l with
  | nil => simp [sort_ranked_outputs]
  | cons x xs ih =>
    exact (insertByLogprobDesc_perm x (sort_ranked_outputs xs)).trans (ih.cons x)

theorem insertByLogprobDesc_sorted (x : RankedOutput) (l : List RankedOutput)
    (h : l.Pairwise (fun a b => b.logprob ≤ a.logprob)) :
    (insertByLogprobDesc x l).Pairwise (fun a b => b.logprob ≤ a.logprob) := by
  induction l with
  | nil => simp [insertByLogprobDesc]
  | cons z zs ih =>
    rcases List.pairwise_cons.mp h with ⟨hz, hzs⟩
    simp only [insertByLogprobDesc]
    split
    · rename_i hle
      refine List.pairwise_cons.mpr ⟨?_, h⟩
      intro w hw
      rcases List.mem_cons.mp hw with hw | hw
      · rw [hw]; exact hle
      · exact le_trans (hz w hw) hle
    · rename_i hgt
      refine List.pairwise_cons.mpr ⟨?_, ih hzs⟩
      intro w hw
      rcases (mem_insertByLogprobDesc x w zs).mp hw with hw | hw
      · rw [hw]; exact le_of_not_le hgt
      · exact hz w hw

theorem insertByLogprobDesc_stable (x : RankedOutput) (l : List RankedOutput)
    (hS : l.Pairwise rankOrder) (hidx : ∀ y ∈ l, x.index < y.index) :
    (insertByLogprobDesc x l).Pairwise rankOrder := by
  induction l with
  | nil => simp [insertByLogprobDesc]
  | cons z zs ih =>
    rcases List.pairwise_cons.mp hS with ⟨hz, hzs⟩
    simp only [insertByLogprobDesc]
    split
    · rename_i hle
      refine List.pairwise_cons.mpr ⟨?_, hS⟩
      intro w hw
      have hwle : w.logprob ≤ x.logprob := by
        rcases List.mem_cons.mp hw with hw | hw
        · rw [hw]; exact hle
        · exact le_trans (rankOrder_le (hz w hw)) hle
      rcases lt_or_eq_of_le hwle with hlt | heq
      · exact Or.inl hlt
      · refine Or.inr ⟨heq.symm, ?_⟩
        rcases List.mem_cons.mp hw with hw | hw
        · exact hw ▸ hidx z (List.mem_cons_self z zs)
        · exact hidx w (List.mem_cons_of_mem z hw)
    · rename_i hgt
      refine List.pairwise_cons.mpr ⟨?_, ih hzs
        (fun y hy => hidx y (List.mem_cons_of_mem z hy))⟩
      intro w hw
      rcases (mem_insertByLogprobDesc x w zs).mp hw with hw | hw
      · rw [hw]
        exact Or.inl (lt_of_not_le hgt)
      · exact hz w hw

theorem sort_ranked_outputs_sorted (l : List RankedOutput) :
    (sort_ranked_outputs l).Pairwise (fun a b => b.logprob ≤ a.logprob) := by
  induction l with
  | nil => simp [sort_ranked_outputs]
  | cons x xs ih => exact insertByLogprobDesc_sorted x _ ih

theorem sort_ranked_outputs_stable (l : List RankedOutput)
    (hidx : l.Pairwise (fun a b => a.index < b.index)) :
    (sort_ranked_outputs l).Pairwise rankOrder := by
  induction l with
  | nil => simp [sort_ranked_outputs]
  | cons x xs ih =>
    rcases List.pairwise_cons.mp hidx with ⟨hx, hxs⟩
    refine insertByLogprobDesc_stable x _ (ih hxs) ?_
    intro y hy
    exact hx y ((sort_ranked_outputs_perm xs).mem_iff.mp hy)

/-- C5: when the gathered task results yield a non-empty list of outputs
(collected in task order, hence with ascending `index`), `rank_outputs`
returns exactly `sort_ranked_outputs` of them, which is a permutation of the
inputs, descending in `logprob`, with ties in ascending original `index`
(stability); concretely, logprobs `-1/10, -9/10, -2/5` come back ordered
`-1/10, -2/5, -9/10`. -/
theorem c5_sorted_descending_stable
    (unitResults : List (Except String (Option RankedOutput)))
    (results : List (Option RankedOutput))
    (hg : gatherStrict unitResults = .ok results)
    (hne : (results.filterMap id).isEmpty = false)
    (hidx : (results.filterMap id).Pairwise (fun a b => a.index < b.index)) :
    rank_outputs unitResults = .ok (sort_ranked_outputs (results.filterMap id))
    ∧ (sort_ranked_outputs (results.filterMap id)).Pairwise
        (fun a b => b.logprob ≤ a.logprob)
    ∧ (sort_ranked_outputs (results.filterMap id)).Pairwise rankOrder
    ∧ (sort_ranked_outputs (results.filterMap id)).Perm (results.filterMap id)
    ∧ sort_ranked_outputs
        [⟨"g1", -1/10, 0, [], ""⟩, ⟨"g2", -9/10, 1, [], ""⟩, ⟨"g3", -2/5, 2, [], ""⟩]
        = [⟨"g1", -1/10, 0, [], ""⟩, ⟨"g3", -2/5, 2, [], ""⟩,
           ⟨"g2", -9/10, 1, [], ""⟩] := by
  refine ⟨?_, sort_ranked_outputs_sorted _, sort_ranked_outputs_stable _ hidx,
    sort_ranked_outputs_perm _, ?_⟩
  · rw [rank_outputs, hg]
    simp only [hne]
    rfl
  · have h3 : insertByLogprobDesc ⟨"g3", -2/5, 2, [], ""⟩ [] = [⟨"g3", -2/5, 2, [], ""⟩] := rfl
    have h2 : insertByLogprobDesc ⟨"g2", -9/10, 1, [], ""⟩ [⟨"g3", -2/5, 2, [], ""⟩]
        = [⟨"g3", -2/5, 2, [], ""⟩, ⟨"g2", -9/10, 1, [], ""⟩] := by
      simp only [insertByLogprobDesc]
      rw [if_neg (by norm_num)]
    have h1 : insertByLogprobDesc ⟨"g1", -1/10, 0, [], ""⟩
        [⟨"g3", -2/5, 2, [], ""⟩, ⟨"g2", -9/10, 1, [], ""⟩]
        = [⟨"g1", -1/10, 0, [], ""⟩, ⟨"g3", -2/5, 2, [], ""⟩,
           ⟨"g2", -9/10, 1, [], ""⟩] := by
      simp only [insertByLogprobDesc]
      rw [if_pos (by norm_num)]
    simp only [sort_ranked_outputs, h3, h2, h1]

/-- C5 witness at a concrete three-task run. -/
theorem c5_sorted_descending_stable_witness :
    rank_outputs [.ok (some ⟨"a", -1, 0, [], ""⟩), .ok none, .ok (some ⟨"b", -2, 2, [], ""⟩)]
      = .ok (sort_ranked_outputs
          (([some ⟨"a", -1, 0, [], ""⟩, none, some ⟨"b", -2, 2, [], ""⟩] :
              List (Option RankedOutput)).filterMap id))
    ∧ (sort_ranked_outputs
        (([some ⟨"a", -1, 0, [], ""⟩, none, some ⟨"b", -2, 2, [], ""⟩] :
            List (Option RankedOutput)).filterMap id)).Pairwise
        (fun a b => b.logprob ≤ a.logprob)
    ∧ (sort_ranked_outputs
        (([some ⟨"a", -1, 0, [], ""⟩, none, some ⟨"b", -2, 2, [], ""⟩] :
            List (Option RankedOutput)).filterMap id)).Pairwise rankOrder
    ∧ (sort_ranked_outputs
        (([some ⟨"a", -1, 0, [], ""⟩, none, some ⟨"b", -2, 2, [], ""⟩] :
            List (Option RankedOutput)).filterMap id)).Perm
        (([some ⟨"a", -1, 0, [], ""⟩, none, some ⟨"b", -2, 2, [], ""⟩] :
            List (Option RankedOutput)).filterMap id)
    ∧ sort_ranked_outputs
        [⟨"g1", -1/10, 0, [], ""⟩, ⟨"g2", -9/10, 1, [], ""⟩, ⟨"g3", -2/5, 2, [], ""⟩]
        = [⟨"g1", -1/10, 0, [], ""⟩, ⟨"g3", -2/5, 2, [], ""⟩,
           ⟨"g2", -9/10, 1, [], ""⟩] :=
  c5_sorted_descending_stable
    [.ok (some ⟨"a", -1, 0, [], ""⟩), .ok none, .ok (some ⟨"b", -2, 2, [], ""⟩)]
    [some ⟨"a", -1, 0, [], ""⟩, none, some ⟨"b", -2, 2, [], ""⟩]
    rfl rfl (by decide)

/-! ## C1: partial failure handling of `rank_outputs` -/

/-- C1: `rank_outputs` does NOT tolerate partial failures.  Every failure
path of `generate_and_evaluate_output` raises (it never returns `None`), and
`rank_outputs` gathers the unit tasks with `asyncio.gather(*tasks)` — the
default `return_exceptions=False` — so one failing unit propagates its
exception out of the whole ranking even when another unit succeeded; the
successful unit's output is lost rather than returned.  (The `None` filter
in lines 357-359 is unreachable for failures.) -/
theorem c1_partial_failure_bug :
    rank_outputs [generate_and_evaluate_result (.ok ⟨"ok-output", -1, 0, [], ""⟩),
                  generate_and_evaluate_result (.error "unit 1 failed")]
      = .error "unit 1 failed"
    ∧ rank_outputs [generate_and_evaluate_result (.error "unit 0 failed"),
                    generate_and_evaluate_result (.ok ⟨"ok-output", -1, 1, [], ""⟩)]
      = .error "unit 0 failed" :=
  ⟨rfl, rfl⟩

/-! ## C8: the logprob extraction error taxonomy -/

/-- The element loop succeeds on an all-well-formed list, returning the
ordered `(token, logprob)` pairs. -/
theorem extractItemsLoop_ok : ∀ (items : List LogprobItem) (i : Nat),
    (∀ it ∈ items, it.token ≠ none ∧ it.logprob ≠ none) →
    extractItemsLoop items i
      = .ok (items.map (fun it => (it.token.getD "", it.logprob.getD 0)))
  | [], _, _ => rfl
  | it :: rest, i, h => by
      obtain ⟨ht, hq⟩ := h it (List.mem_cons_self _ _)
      obtain ⟨tok, lp⟩ := it
      rcases tok with _ | t
      · exact absurd rfl ht
      rcases lp with _ | q
      · exact absurd rfl hq
      show (match extractItemsLoop rest (i + 1) with
            | Except.error e => Except.error e
            | Except.ok l => Except.ok ((t, q) :: l)) = _
      rw [extractItemsLoop_ok rest (i + 1) (fun x hx => h x (List.mem_cons_of_mem _ hx))]
      rfl

/-- The element loop raises `MalformedLogprobsError` when some element lacks
a string token or a numeric logprob. -/
theorem extractItemsLoop_malformed : ∀ (items : List LogprobItem) (i : Nat),
    (∃ it ∈ items, it.token = none ∨ it.logprob = none) →
    ∃ msg, extractItemsLoop items i = .error (.malformedLogprobs msg)
  | [], _, h => by simp at h
  | it :: rest, i, h => by
      obtain ⟨tok, lp⟩ := it
      rcases tok with _ | t
      · exact ⟨_, rfl⟩
      rcases lp with _ | q
      · exact ⟨_, rfl⟩
      obtain ⟨w, hw, hbad⟩ := h
      rcases List.mem_cons.mp hw with hww | hww
      · rw [hww] at hbad
        rcases hbad with hb | hb
        · exact Option.noConfusion hb
        · exact Option.noConfusion hb
      · obtain ⟨msg, hmsg⟩ := extractItemsLoop_malformed rest (i + 1) ⟨w, hww, hbad⟩
        refine ⟨msg, ?_⟩
        show (match extractItemsLoop rest (i + 1) with
              | Except.error e => Except.error e
              | Except.ok l => Except.ok ((t, q) :: l)) = _
        rw [hmsg]

/-- C8: `_extract_raw_token_logprobs` raises `LogprobsNotAvailableError` when
the response is `None`, has no choices, a missing/`None` `logprobs`, a
missing/non-list `content`, or an empty `content` list; it raises
`MalformedLogprobsError` when some element of a non-empty `content` lacks a
string token or a numeric logprob; and it returns the full ordered
`(token, logprob)` list when every element is well-formed. -/
theorem c8_logprobs_error_taxonomy :
    extract_raw_token_logprobs none
      = .error (.logprobsNotAvailable
          "LiteLLM response object is None, cannot extract logprobs.")
    ∧ extract_raw_token_logprobs (some ⟨[]⟩)
      = .error (.logprobsNotAvailable
          "Response choices list is empty or invalid, cannot extract logprobs.")
    ∧ (∀ rest : List CompletionChoice, extract_raw_token_logprobs (some ⟨⟨none⟩ :: rest⟩)
        = .error (.logprobsNotAvailable
            "No 'logprobs' attribute on choice object or it is None."))
    ∧ (∀ rest : List CompletionChoice,
        extract_raw_token_logprobs (some ⟨⟨some ⟨none⟩⟩ :: rest⟩)
        = .error (.logprobsNotAvailable "'logprobs.content' is missing or not a list."))
    ∧ (∀ rest : List CompletionChoice,
        extract_raw_token_logprobs (some ⟨⟨some ⟨some []⟩⟩ :: rest⟩)
        = .error (.logprobsNotAvailable "'logprobs.content' is an empty list."))
    ∧ (∀ (items : List LogprobItem) (rest : List CompletionChoice),
        (∃ it ∈ items, it.token = none ∨ it.logprob = none) →
        ∃ msg, extract_raw_token_logprobs (some ⟨⟨some ⟨some items⟩⟩ :: rest⟩)
          = .error (.malformedLogprobs msg))
    ∧ (∀ (items : List LogprobItem) (rest : List CompletionChoice),
        items ≠ [] →
        (∀ it ∈ items, it.token ≠ none ∧ it.logprob ≠ none) →
        extract_raw_token_logprobs (some ⟨⟨some ⟨some items⟩⟩ :: rest⟩)
          = .ok (items.map (fun it => (it.token.getD "", it.logprob.getD 0)))) := by
  refine ⟨rfl, rfl, fun _ => rfl, fun _ => rfl, fun _ => rfl, ?_, ?_⟩
  · intro items rest h
    rcases items with _ | ⟨it0, irest⟩
    · simp at h
    · obtain ⟨msg, hmsg⟩ := extractItemsLoop_malformed (it0 :: irest) 0 h
      refine ⟨msg, ?_⟩
      show (match extractItemsLoop (it0 :: irest) 0 with
            | Except.error e => Except.error e
            | Except.ok l => if l.isEmpty
                then Except.error (LogprobsError.logprobsNotAvailable
                  "All logprob items in 'logprobs.content' were malformed.")
                else Except.ok l) = _
      rw [hmsg]
  · intro items rest hne hwf
    rcases items with _ | ⟨it0, irest⟩
    · exact absurd rfl hne
    · show (match extractItemsLoop (it0 :: irest) 0 with
            | Except.error e => Except.error e
            | Except.ok l => if l.isEmpty
                then Except.error (LogprobsError.logprobsNotAvailable
                  "All logprob items in 'logprobs.content' were malformed.")
                else Except.ok l) = _
      rw [extractItemsLoop_ok (it0 :: irest) 0 hwf]
      simp

/-- C8 witness at a concrete malformed and a concrete well-formed response. -/
theorem c8_logprobs_error_taxonomy_witness :
    (∃ msg, extract_raw_token_logprobs
        (some ⟨[⟨some ⟨some [⟨none, none⟩]⟩⟩]⟩)
      = .error (.malformedLogprobs msg))
    ∧ extract_raw_token_logprobs
        (some ⟨[⟨some ⟨some [⟨some "a", some (-1)⟩]⟩⟩]⟩)
      = .ok ([(⟨some "a", some (-1)⟩ : LogprobItem)].map
          (fun it => (it.token.getD "", it.logprob.getD 0))) :=
  ⟨c8_logprobs_error_taxonomy.2.2.2.2.2.1 [⟨none, none⟩] [] (by simp),
   c8_logprobs_error_taxonomy.2.2.2.2.2.2 [⟨some "a", some (-1)⟩] [] (by simp)
     (by simp)⟩

/-! ## C7: raw-placeholder and substituted template forms -/

/-- Lexing the raw-placeholder template fails (bare `LOGPROB_TRUE` is not a
JSON token). -/
theorem lex_t1_fail : lexJson ("\x7b\"x\": LOGPROB_TRUE\x7d".toList) = none := by
  rw [show "\x7b\"x\": LOGPROB_TRUE\x7d".toList
      = '\x7b' :: '"' :: (['x'] ++ ('"' :: ':' :: ' ' :: 'L' :: "OGPROB_TRUE\x7d".toList))
      from rfl]
  rw [lexJson_lbrace, lexJson_quote, lexStr_chain ['x'] (by decide), lexStr_quote,
    lexJson_colon, lexJson_space, lexJson_upperL]
  rfl

/-- The placeholder substitution turns the raw template into the quoted one. -/
theorem replace_t1 : replaceLogprobTrue ("\x7b\"x\": LOGPROB_TRUE\x7d".toList)
    = "\x7b\"x\": \"LOGPROB_TRUE\"\x7d".toList := by
  rw [show "\x7b\"x\": LOGPROB_TRUE\x7d".toList
      = ['\x7b', '"', 'x', '"', ':', ' '] ++ (logprobTruePat ++ ['\x7d']) from rfl]
  rw [replaceLogprobTrue_chain _ (by decide), replaceLogprobTrue_needle,
    replaceLogprobTrue_cons_ne (by decide), replaceLogprobTrue_nil]
  rfl

/-- Lexing the quoted-placeholder template. -/
theorem lex_t2 : lexJson ("\x7b\"x\": \"LOGPROB_TRUE\"\x7d".toList)
    = some [JTok.lbrace, JTok.jstr "x", JTok.colon, JTok.jstr "LOGPROB_TRUE",
        JTok.rbrace] := by
  rw [show "\x7b\"x\": \"LOGPROB_TRUE\"\x7d".toList
      = '\x7b' :: '"' :: (['x'] ++ ('"' :: ':' :: ' ' :: '"' ::
          ("LOGPROB_TRUE".toList ++ ('"' :: '\x7d' :: [])))) from rfl]
  rw [lexJson_lbrace, lexJson_quote, lexStr_chain ['x'] (by decide), lexStr_quote,
    lexJson_colon, lexJson_space, lexJson_quote,
    lexStr_chain "LOGPROB_TRUE".toList (by decide), lexStr_quote, lexJson_rbrace,
    lexJson_nil]
  rfl

/-- Lexing the boolean-value template. -/
theorem lex_t3 : lexJson ("\x7b\"x\": true\x7d".toList)
    = some [JTok.lbrace, JTok.jstr "x", JTok.colon, JTok.jbool true, JTok.rbrace] := by
  rw [show "\x7b\"x\": true\x7d".toList
      = '\x7b' :: '"' :: (['x'] ++ ('"' :: ':' :: ' ' ::
          't' :: 'r' :: 'u' :: 'e' :: '\x7d' :: [])) from rfl]
  rw [lexJson_lbrace, lexJson_quote, lexStr_chain ['x'] (by decide), lexStr_quote,
    lexJson_colon, lexJson_space, lexJson_true, lexJson_rbrace, lexJson_nil]
  rfl

theorem loads_t1 : jsonLoads "\x7b\"x\": LOGPROB_TRUE\x7d" = none := by
  simp only [jsonLoads]
  rw [lex_t1_fail]

theorem loads_t2 : jsonLoads "\x7b\"x\": \"LOGPROB_TRUE\"\x7d"
    = some (.jobj [("x", .jstr "LOGPROB_TRUE")]) := by
  simp only [jsonLoads]
  rw [lex_t2]
  rfl

theorem loads_t3 : jsonLoads "\x7b\"x\": true\x7d"
    = some (.jobj [("x", .jbool true)]) := by
  simp only [jsonLoads]
  rw [lex_t3]
  rfl

/-- The regex fallback finds nothing in the boolean-value template. -/
theorem rx_t3 : rxFindAll ("\x7b\"x\": true\x7d".toList) = [] := by
  rw [show "\x7b\"x\": true\x7d".toList
      = '\x7b' :: '"' :: 'x' :: '"' :: ([':', ' ', 't', 'r', 'u', 'e', '\x7d'] ++ [])
      from rfl]
  rw [rxFindAll_cons_ne (by decide), rxFindAll_quote_none (by decide),
    rxFindAll_cons_ne (by decide), rxFindAll_quote_none (by decide),
    rxFindAll_chain _ (by decide), rxFindAll_nil]

/-- C7 counterexample: for the substituted-form template `\x7b"x": true\x7d`
(the scored key followed by a colon and a JSON boolean instead of the
placeholder), the extractor does NOT return `"x"`: the JSON parse succeeds
but `true` is not a string, the regex fallback requires the literal
`LOGPROB_TRUE` text, and the extractor raises `ValueError`. -/
theorem c7_counterexample :
    extract_template_attributes "\x7b\"x\": true\x7d"
      = .error "No LOGPROB_TRUE attributes found in template via JSON or regex" := by
  simp only [extract_template_attributes, loads_t3, rx_t3]
  rfl

/-- C7 (amended): the extractor accepts the raw-placeholder form
(`\x7b"x": LOGPROB_TRUE\x7d`, via the quote-substitution parse) and the
quoted-placeholder form (`\x7b"x": "LOGPROB_TRUE"\x7d`, via the direct JSON
parse), returning `["x"]` for both; it does NOT accept a template whose
scored key is followed by a JSON boolean (see the counterexample). -/
theorem c7_extractor_placeholder_forms :
    extract_template_attributes "\x7b\"x\": LOGPROB_TRUE\x7d" = .ok ["x"]
    ∧ extract_template_attributes "\x7b\"x\": \"LOGPROB_TRUE\"\x7d" = .ok ["x"] := by
  constructor
  · simp only [extract_template_attributes, loads_t1, replace_t1]
    rw [show String.mk ("\x7b\"x\": \"LOGPROB_TRUE\"\x7d".toList)
        = "\x7b\"x\": \"LOGPROB_TRUE\"\x7d" from rfl]
    rw [loads_t2]
    rfl
  · simp only [extract_template_attributes, loads_t2]
    rfl

/-! ## C6: whitespace insensitivity of the extractor -/

theorem toList_mk (l : List Char) : (String.mk l).toList = l := rfl

theorem L_not_mem_spn (n : Nat) : 'L' ∉ spn n := by
  simp [spn, List.mem_replicate]

theorem dropWhile_rxWs_spn (m : Nat) (cs : List Char) :
    (spn m ++ cs).dropWhile rxWsChar = cs.dropWhile rxWsChar := by
  induction m with
  | zero => simp [spn]
  | succ k ih =>
    simp only [spn, List.replicate_succ, List.cons_append, List.dropWhile_cons]
    rw [show rxWsChar ' ' = true from rfl]
    simpa [spn] using ih

/-- The regex tail-matcher on a one-character key followed immediately by the
colon, any run of spaces, and the placeholder. -/
theorem rxMatchAfterQuote_spn (k : Char) (hk : rxKeyChar k = true) (m : Nat)
    (tail : List Char) :
    rxMatchAfterQuote (k :: '"' :: ':' :: (spn m ++ (logprobTruePat ++ tail)))
      = some (String.mk [k], tail) := by
  have hq : rxKeyChar '"' = false := rfl
  have h1 : (k :: '"' :: ':' :: (spn m ++ (logprobTruePat ++ tail))).takeWhile rxKeyChar
      = [k] := by
    simp [List.takeWhile_cons, hk, hq]
  have h2 : (k :: '"' :: ':' :: (spn m ++ (logprobTruePat ++ tail))).dropWhile rxKeyChar
      = '"' :: ':' :: (spn m ++ (logprobTruePat ++ tail)) := by
    simp [List.dropWhile_cons, hk, hq]
  have h3 : ((spn m ++ (logprobTruePat ++ tail)).dropWhile rxWsChar)
      = logprobTruePat ++ tail := by
    rw [dropWhile_rxWs_spn]
    rw [show logprobTruePat ++ tail = 'L' :: ("OGPROB_TRUE".toList ++ tail) from rfl]
    rw [List.dropWhile_cons]
    rw [show rxWsChar 'L' = false from rfl]
    rfl
  have h4 : logprobTruePat.isPrefixOf (logprobTruePat ++ tail) = true := by
    rw [List.isPrefixOf_iff_prefix]
    exact List.prefix_append _ _
  have h5 : (logprobTruePat ++ tail).drop 12 = tail := by
    rw [show (12 : Nat) = logprobTruePat.length from rfl]
    exact List.drop_left _ _
  unfold rxMatchAfterQuote
  rw [h1, h2]
  show (if logprobTruePat.isPrefixOf
        ((spn m ++ (logprobTruePat ++ tail)).dropWhile rxWsChar) = true
      then some (String.mk [k],
        ((spn m ++ (logprobTruePat ++ tail)).dropWhile rxWsChar).drop 12)
      else none) = some (String.mk [k], tail)
  rw [h3, h4, if_pos rfl, h5]

/-- C6 counterexample: on the regex fallback path (template not valid JSON
even after substitution, here due to a stray leading `x`), whitespace between
the key and its colon changes the result: `x\x7b"a": LOGPROB_TRUE\x7d`
extracts `["a"]`, but inserting one space before the colon makes the pattern
`"([^" ]+)":\s*LOGPROB_TRUE` fail and the extractor raises `ValueError`. -/
theorem c6_counterexample :
    extract_template_attributes "x\x7b\"a\": LOGPROB_TRUE\x7d" = .ok ["a"]
    ∧ extract_template_attributes "x\x7b\"a\" : LOGPROB_TRUE\x7d"
      = .error "No LOGPROB_TRUE attributes found in template via JSON or regex" := by
  constructor
  · have hA1 : lexJson ("x\x7b\"a\": LOGPROB_TRUE\x7d".toList) = none := by
      rw [show "x\x7b\"a\": LOGPROB_TRUE\x7d".toList
          = 'x' :: ("\x7b\"a\": LOGPROB_TRUE\x7d".toList) from rfl, lexJson_lowerx]
    have hA2 : lexJson ((String.mk (replaceLogprobTrue
        ("x\x7b\"a\": LOGPROB_TRUE\x7d".toList))).toList) = none := by
      rw [toList_mk]
      rw [show "x\x7b\"a\": LOGPROB_TRUE\x7d".toList
          = 'x' :: ("\x7b\"a\": LOGPROB_TRUE\x7d".toList) from rfl]
      rw [replaceLogprobTrue_cons_ne (by decide), lexJson_lowerx]
    have hA3 : rxFindAll ("x\x7b\"a\": LOGPROB_TRUE\x7d".toList) = ["a"] := by
      rw [show "x\x7b\"a\": LOGPROB_TRUE\x7d".toList
          = 'x' :: '\x7b' :: '"' ::
            ('a' :: '"' :: ':' :: (spn 1 ++ (logprobTruePat ++ ['\x7d']))) from rfl]
      rw [rxFindAll_cons_ne (by decide), rxFindAll_cons_ne (by decide),
        rxFindAll_quote_some (rxMatchAfterQuote_spn 'a' (by decide) 1 ['\x7d']),
        rxFindAll_cons_ne (by decide), rxFindAll_nil]
    simp only [extract_template_attributes, jsonLoads]
    rw [hA1, hA2, hA3]
    rfl
  · have hB1 : lexJson ("x\x7b\"a\" : LOGPROB_TRUE\x7d".toList) = none := by
      rw [show "x\x7b\"a\" : LOGPROB_TRUE\x7d".toList
          = 'x' :: ("\x7b\"a\" : LOGPROB_TRUE\x7d".toList) from rfl, lexJson_lowerx]
    have hB2 : lexJson ((String.mk (replaceLogprobTrue
        ("x\x7b\"a\" : LOGPROB_TRUE\x7d".toList))).toList) = none := by
      rw [toList_mk]
      rw [show "x\x7b\"a\" : LOGPROB_TRUE\x7d".toList
          = 'x' :: ("\x7b\"a\" : LOGPROB_TRUE\x7d".toList) from rfl]
      rw [replaceLogprobTrue_cons_ne (by decide), lexJson_lowerx]
    have hB3 : rxFindAll ("x\x7b\"a\" : LOGPROB_TRUE\x7d".toList) = [] := by
      rw [show "x\x7b\"a\" : LOGPROB_TRUE\x7d".toList
          = 'x' :: '\x7b' :: '"' ::
            ('a' :: '"' :: (' ' :: ':' :: ' ' :: (logprobTruePat ++ ['\x7d']))) from rfl]
      rw [rxFindAll_cons_ne (by decide), rxFindAll_cons_ne (by decide),
        rxFindAll_quote_none (by decide), rxFindAll_cons_ne (by decide),
        rxFindAll_quote_none (by decide)]
      rw [show (' ' :: ':' :: ' ' :: (logprobTruePat ++ ['\x7d']))
          = [' ', ':', ' '] ++ (logprobTruePat ++ ['\x7d']) from rfl]
      rw [rxFindAll_chain _ (by decide), rxFindAll_chain _ (by decide),
        rxFindAll_cons_ne (by decide), rxFindAll_nil]
    simp only [extract_template_attributes, jsonLoads]
    rw [hB1, hB2, hB3]
    rfl

/-- Lexing a one-plain-character JSON key. -/
theorem lexJson_key1 (k : Char) (h1 : k ≠ '"') (h2 : k ≠ '\\') (h3 : 32 ≤ k.toNat)
    (cs : List Char) :
    lexJson ('"' :: k :: '"' :: cs)
      = (lexJson cs).map (fun ts => JTok.jstr (String.mk [k]) :: ts) := by
  rw [lexJson_quote, lexStr_plain h1 h2 h3, lexStr_quote]
  rfl

/-- A bare `LOGPROB_TRUE` placeholder is not a JSON token. -/
theorem lexJson_pat (cs : List Char) : lexJson (logprobTruePat ++ cs) = none := by
  rw [show logprobTruePat ++ cs = 'L' :: ("OGPROB_TRUE".toList ++ cs) from rfl,
    lexJson_upperL]

/-- Lexing the quoted placeholder. -/
theorem lexJson_patQuoted (cs : List Char) :
    lexJson (logprobTrueQuoted ++ cs)
      = (lexJson cs).map (fun ts => JTok.jstr "LOGPROB_TRUE" :: ts) := by
  rw [show logprobTrueQuoted ++ cs = '"' :: ("LOGPROB_TRUE".toList ++ ('"' :: cs))
      from rfl]
  rw [lexJson_quote, lexStr_chain "LOGPROB_TRUE".toList (by decide), lexStr_quote]
  rfl

/-- A raw-placeholder template with keys `a`, `b`, `c` and arbitrary runs of
spaces around each colon (exercising the JSON path after substitution). -/
def c6JsonTemplate (n1 n2 n3 n4 n5 n6 : Nat) : List Char :=
  '\x7b' :: '"' :: 'a' :: '"' ::
    (spn n1 ++ (':' :: (spn n2 ++ (logprobTruePat ++
  (',' :: ' ' :: '"' :: 'b' :: '"' ::
    (spn n3 ++ (':' :: (spn n4 ++ (logprobTruePat ++
  (',' :: ' ' :: '"' :: 'c' :: '"' ::
    (spn n5 ++ (':' :: (spn n6 ++ (logprobTruePat ++
  ['\x7d']))))))))))))))

/-- The quote-substituted form of `c6JsonTemplate`. -/
def c6JsonSubst (n1 n2 n3 n4 n5 n6 : Nat) : List Char :=
  '\x7b' :: '"' :: 'a' :: '"' ::
    (spn n1 ++ (':' :: (spn n2 ++ (logprobTrueQuoted ++
  (',' :: ' ' :: '"' :: 'b' :: '"' ::
    (spn n3 ++ (':' :: (spn n4 ++ (logprobTrueQuoted ++
  (',' :: ' ' :: '"' :: 'c' :: '"' ::
    (spn n5 ++ (':' :: (spn n6 ++ (logprobTrueQuoted ++
  ['\x7d']))))))))))))))

/-- A regex-path template (the leading `x` defeats both JSON parses) with
keys `a`, `b`, `c`, the colon immediately after each key, and arbitrary runs
of spaces between the colon and the placeholder. -/
def c6RegexTemplate (m1 m2 m3 : Nat) : List Char :=
  'x' :: '\x7b' :: '"' :: ('a' :: '"' :: ':' :: (spn m1 ++ (logprobTruePat ++
  (',' :: ' ' :: '"' :: ('b' :: '"' :: ':' :: (spn m2 ++ (logprobTruePat ++
  (',' :: ' ' :: '"' :: ('c' :: '"' :: ':' :: (spn m3 ++ (logprobTruePat ++
  ['\x7d'])))))))))))

theorem c6_lex_direct_fail (n1 n2 n3 n4 n5 n6 : Nat) :
    lexJson (c6JsonTemplate n1 n2 n3 n4 n5 n6) = none := by
  simp only [c6JsonTemplate]
  rw [lexJson_lbrace, lexJson_key1 'a' (by decide) (by decide) (by decide),
    lexJson_spn, lexJson_colon, lexJson_spn, lexJson_pat]
  rfl

theorem c6_replace (n1 n2 n3 n4 n5 n6 : Nat) :
    replaceLogprobTrue (c6JsonTemplate n1 n2 n3 n4 n5 n6)
      = c6JsonSubst n1 n2 n3 n4 n5 n6 := by
  simp only [c6JsonTemplate, c6JsonSubst]
  rw [replaceLogprobTrue_cons_ne (by decide), replaceLogprobTrue_cons_ne (by decide),
    replaceLogprobTrue_cons_ne (by decide), replaceLogprobTrue_cons_ne (by decide),
    replaceLogprobTrue_chain (spn n1) (L_not_mem_spn n1),
    replaceLogprobTrue_cons_ne (by decide),
    replaceLogprobTrue_chain (spn n2) (L_not_mem_spn n2),
    replaceLogprobTrue_needle,
    replaceLogprobTrue_cons_ne (by decide), replaceLogprobTrue_cons_ne (by decide),
    replaceLogprobTrue_cons_ne (by decide), replaceLogprobTrue_cons_ne (by decide),
    replaceLogprobTrue_cons_ne (by decide),
    replaceLogprobTrue_chain (spn n3) (L_not_mem_spn n3),
    replaceLogprobTrue_cons_ne (by decide),
    replaceLogprobTrue_chain (spn n4) (L_not_mem_spn n4),
    replaceLogprobTrue_needle,
    replaceLogprobTrue_cons_ne (by decide), replaceLogprobTrue_cons_ne (by decide),
    replaceLogprobTrue_cons_ne (by decide), replaceLogprobTrue_cons_ne (by decide),
    replaceLogprobTrue_cons_ne (by decide),
    replaceLogprobTrue_chain (spn n5) (L_not_mem_spn n5),
    replaceLogprobTrue_cons_ne (by decide),
    replaceLogprobTrue_chain (spn n6) (L_not_mem_spn n6),
    replaceLogprobTrue_needle,
    replaceLogprobTrue_cons_ne (by decide), replaceLogprobTrue_nil]

theorem c6_lex_subst (n1 n2 n3 n4 n5 n6 : Nat) :
    lexJson (c6JsonSubst n1 n2 n3 n4 n5 n6)
      = some [JTok.lbrace, JTok.jstr "a", JTok.colon, JTok.jstr "LOGPROB_TRUE",
          JTok.comma, JTok.jstr "b", JTok.colon, JTok.jstr "LOGPROB_TRUE",
          JTok.comma, JTok.jstr "c", JTok.colon, JTok.jstr "LOGPROB_TRUE",
          JTok.rbrace] := by
  simp only [c6JsonSubst]
  rw [lexJson_lbrace, lexJson_key1 'a' (by decide) (by decide) (by decide),
    lexJson_spn, lexJson_colon, lexJson_spn, lexJson_patQuoted,
    lexJson_comma, lexJson_space, lexJson_key1 'b' (by decide) (by decide) (by decide),
    lexJson_spn, lexJson_colon, lexJson_spn, lexJson_patQuoted,
    lexJson_comma, lexJson_space, lexJson_key1 'c' (by decide) (by decide) (by decide),
    lexJson_spn, lexJson_colon, lexJson_spn, lexJson_patQuoted,
    lexJson_rbrace, lexJson_nil]
  rfl

theorem c6_loads_subst (n1 n2 n3 n4 n5 n6 : Nat) :
    jsonLoads (String.mk (c6JsonSubst n1 n2 n3 n4 n5 n6))
      = some (.jobj [("a", .jstr "LOGPROB_TRUE"), ("b", .jstr "LOGPROB_TRUE"),
          ("c", .jstr "LOGPROB_TRUE")]) := by
  simp only [jsonLoads]
  rw [toList_mk, c6_lex_subst]
  rfl

theorem c6_loads_direct (n1 n2 n3 n4 n5 n6 : Nat) :
    jsonLoads (String.mk (c6JsonTemplate n1 n2 n3 n4 n5 n6)) = none := by
  simp only [jsonLoads]
  rw [toList_mk, c6_lex_direct_fail]

theorem c6_rx (m1 m2 m3 : Nat) :
    rxFindAll (c6RegexTemplate m1 m2 m3) = ["a", "b", "c"] := by
  simp only [c6RegexTemplate]
  rw [rxFindAll_cons_ne (by decide), rxFindAll_cons_ne (by decide),
    rxFindAll_quote_some (rxMatchAfterQuote_spn 'a' (by decide) m1 _),
    rxFindAll_cons_ne (by decide), rxFindAll_cons_ne (by decide),
    rxFindAll_quote_some (rxMatchAfterQuote_spn 'b' (by decide) m2 _),
    rxFindAll_cons_ne (by decide), rxFindAll_cons_ne (by decide),
    rxFindAll_quote_some (rxMatchAfterQuote_spn 'c' (by decide) m3 _),
    rxFindAll_cons_ne (by decide), rxFindAll_nil]

theorem c6_loads_regex_direct (m1 m2 m3 : Nat) :
    jsonLoads (String.mk (c6RegexTemplate m1 m2 m3)) = none := by
  simp only [jsonLoads]
  rw [toList_mk]
  simp only [c6RegexTemplate]
  rw [lexJson_lowerx]

theorem c6_loads_regex_subst (m1 m2 m3 : Nat) :
    jsonLoads (String.mk (replaceLogprobTrue (c6RegexTemplate m1 m2 m3))) = none := by
  simp only [jsonLoads]
  rw [toList_mk]
  simp only [c6RegexTemplate]
  rw [replaceLogprobTrue_cons_ne (by decide), lexJson_lowerx]

/-- C6 (amended): attribute order `["a","b","c"]` is preserved, and
whitespace around the colons does not affect the result, on the JSON path:
any runs of spaces before and after each colon of a raw-placeholder template
still extract `["a","b","c"]`.  On the regex fallback path, whitespace is
tolerated only BETWEEN the colon and the placeholder (the pattern
`"([^" ]+)":\s*LOGPROB_TRUE` requires the colon immediately after the key's
closing quote — whitespace before a colon breaks it, see the
counterexample). -/
theorem c6_whitespace_insensitivity (n1 n2 n3 n4 n5 n6 m1 m2 m3 : Nat) :
    extract_template_attributes (String.mk (c6JsonTemplate n1 n2 n3 n4 n5 n6))
      = .ok ["a", "b", "c"]
    ∧ extract_template_attributes (String.mk (c6RegexTemplate m1 m2 m3))
      = .ok ["a", "b", "c"] := by
  constructor
  · simp only [extract_template_attributes]
    rw [c6_loads_direct, toList_mk, c6_replace, c6_loads_subst]
    rfl
  · simp only [extract_template_attributes]
    rw [toList_mk, c6_loads_regex_direct, c6_loads_regex_subst, c6_rx]
    rfl
